import Mathlib

/-!
# Candidate scoring: the store of `src/main.cpp` and its ranking query

A shallow embedding of the SQLite-backed `Database` class of `src/main.cpp`
and of the request handler that submits scores and feedback.

Modelling conventions
* `std::string` is a Lean `String`, one `Char` per C++ `char`.
* Every text value reaches SQLite through `sqlite3_bind_text(stmt, i, s.c_str(), -1, ...)`,
  which reads the C string up to its first zero byte: `c_str`.  Every text value comes back
  through `reinterpret_cast<const char*>(sqlite3_column_text(...))` assigned to a
  `std::string`, which again stops at the first zero byte.
* A table is the list of its rows in insertion order.  A statement that violates a
  constraint of `init_schema` (PRIMARY KEY, UNIQUE, CHECK, REFERENCES with
  `PRAGMA foreign_keys = ON`) changes nothing; the code ignores the result of
  `sqlite3_step`, so the failure is silent.
* `datetime('now')` is the argument `now`; the draws of `dis(gen)` are the argument `rnd`.
* SQLite's `AVG` and the `double` fields are exact rationals; `NULL` is `none`.
-/

namespace CandidateScoring

/-! ## Strings -/

/-- The C string seen through `s.c_str()` by a reader that stops at the first zero byte. -/
def c_str (s : String) : String := ⟨s.data.takeWhile (fun c => c ≠ '\x00')⟩

/-- A string without a zero byte. -/
def NulFree (s : String) : Prop := '\x00' ∉ s.data

instance (s : String) : Decidable (NulFree s) := by unfold NulFree; infer_instance

/-! ## `generate_uuid` (main.cpp 12-27) -/

/-- The table `hex = "0123456789abcdef"`; every index the code uses is below 16. -/
def hex (i : Nat) : Char := "0123456789abcdef".data.getD i '0'

/-- The loop `for (char& c : uuid)`: the `k`-th draw replaces the next `x` or `y`. -/
def generate_uuid_loop (rnd : Nat → Fin 16) : List Char → Nat → List Char
  | [], _ => []
  | c :: cs, k =>
    if c = 'x' then hex (rnd k).val :: generate_uuid_loop rnd cs (k + 1)
    else if c = 'y' then
      hex (((rnd k).val &&& 0x3) ||| 0x8) :: generate_uuid_loop rnd cs (k + 1)
    else c :: generate_uuid_loop rnd cs k

/-- The function `generate_uuid`, `rnd k` being the `k`-th value `dis(gen)` returns. -/
def generate_uuid (rnd : Nat → Fin 16) : String :=
  ⟨generate_uuid_loop rnd "xxxxxxxx-xxxx-4xxx-yxxx-xxxxxxxxxxxx".data 0⟩

/-! ## The four relations of `init_schema` (main.cpp 80-119) -/

structure UserRow where
  id : String
  email : String
  display_name : String
  created_at : Nat
  deriving DecidableEq, Repr

structure PositionRow where
  id : String
  title : String
  created_by : String
  created_at : Nat
  deriving DecidableEq, Repr

structure CandidateRow where
  id : String
  position_id : String
  name : String
  student_feedback : Option String
  created_at : Nat
  deriving DecidableEq, Repr

structure ScoreRow where
  id : String
  candidate_id : String
  interviewer_id : String
  hand_gestures : Int
  stayed_awake : Int
  created_at : Nat
  updated_at : Nat
  deriving DecidableEq, Repr

/-- The persisted state: the rows of the four tables, in insertion order. -/
structure Database where
  users : List UserRow
  positions : List PositionRow
  candidates : List CandidateRow
  scores : List ScoreRow
  deriving DecidableEq, Repr

/-- The store right after `init_schema` on a new file. -/
def Database.empty : Database := ⟨[], [], [], []⟩

/-- The condition `x BETWEEN 1 AND 5` of the two CHECK constraints. -/
def between_1_and_5 (x : Int) : Prop := 1 ≤ x ∧ x ≤ 5

instance (x : Int) : Decidable (between_1_and_5 x) := by unfold between_1_and_5; infer_instance

/-! ## Result records (templates.h) -/

structure CandidateRanking where
  id : String
  name : String
  num_scores : Int
  avg_hand_gestures : ℚ
  avg_stayed_awake : ℚ
  avg_total : ℚ
  deriving DecidableEq

structure CandidateDetail where
  id : String
  name : String
  position_id : String
  position_title : String
  student_feedback : String
  deriving DecidableEq, Repr

structure ScoreStats where
  num_scores : Int
  avg_hand_gestures : ℚ
  avg_stayed_awake : ℚ
  avg_total : ℚ
  deriving DecidableEq

structure MyScore where
  exists_ : Bool
  hand_gestures : Int
  stayed_awake : Int
  deriving DecidableEq, Repr

/-! ## SQL aggregates -/

/-- SQL `AVG` over the non-NULL values of a group: NULL on an empty group. -/
def sql_avg (xs : List Int) : Option ℚ :=
  if xs.isEmpty then none else some ((xs.sum : ℚ) / (xs.length : ℚ))

/-- SQL `(a + b) / 2`, NULL as soon as an operand is NULL. -/
def sql_half_sum (a b : Option ℚ) : Option ℚ :=
  match a, b with
  | some x, some y => some ((x + y) / 2)
  | _, _ => none

/-- The C++ idiom `sqlite3_column_type(..) != SQLITE_NULL ? sqlite3_column_double(..) : 0`,
also what `sqlite3_column_double` returns on NULL. -/
def column_double (v : Option ℚ) : ℚ := v.getD 0

/-! ## Writes of the `Database` class -/

/-- Method `Database::ensure_user` (main.cpp 133-142): `INSERT OR IGNORE INTO users`.  The row is
skipped when its id (PRIMARY KEY) or its email (UNIQUE) is already present. -/
def ensure_user (db : Database) (now : Nat) (id email name : String) : Database :=
  let row : UserRow :=
    { id := c_str id, email := c_str email, display_name := c_str name, created_at := now }
  if db.users.any (fun u => u.id = row.id || u.email = row.email) then db
  else { db with users := db.users ++ [row] }

/-- Method `Database::create_position` (main.cpp 168-179): `INSERT INTO positions`.  The insert
fails on a duplicate id or when `created_by` names no user; the generated id is returned
in both cases. -/
def create_position (db : Database) (now : Nat) (rnd : Nat → Fin 16)
    (title user_id : String) : String × Database :=
  let id := generate_uuid rnd
  let row : PositionRow :=
    { id := c_str id, title := c_str title, created_by := c_str user_id, created_at := now }
  if db.positions.any (fun p => p.id = row.id) then (id, db)
  else if ¬ db.users.any (fun u => u.id = row.created_by) then (id, db)
  else (id, { db with positions := db.positions ++ [row] })

/-- Method `Database::create_candidate` (main.cpp 222-233): `INSERT INTO candidates`, the
feedback column left NULL.  The insert fails on a duplicate id or when `position_id`
names no position; the generated id is returned in both cases. -/
def create_candidate (db : Database) (now : Nat) (rnd : Nat → Fin 16)
    (position_id name : String) : String × Database :=
  let id := generate_uuid rnd
  let row : CandidateRow :=
    { id := c_str id, position_id := c_str position_id, name := c_str name,
      student_feedback := none, created_at := now }
  if db.candidates.any (fun c => c.id = row.id) then (id, db)
  else if ¬ db.positions.any (fun p => p.id = row.position_id) then (id, db)
  else (id, { db with candidates := db.candidates ++ [row] })

/-- Method `Database::get_my_score` (main.cpp 279-293): the first row of
`SELECT hand_gestures, stayed_awake FROM scores WHERE candidate_id = ? AND interviewer_id = ?`. -/
def get_my_score (db : Database) (candidate_id user_id : String) : MyScore :=
  match db.scores.filter
      (fun s => s.candidate_id = c_str candidate_id && s.interviewer_id = c_str user_id) with
  | [] => { exists_ := false, hand_gestures := 0, stayed_awake := 0 }
  | s :: _ => { exists_ := true, hand_gestures := s.hand_gestures, stayed_awake := s.stayed_awake }

/-- The statement `UPDATE scores SET hand_gestures = ?, stayed_awake = ?, updated_at =
datetime('now') WHERE candidate_id = ? AND interviewer_id = ?`: aborted as a whole when a
new value breaks its CHECK constraint. -/
def update_score_rows (scores : List ScoreRow) (now : Nat) (cid uid : String)
    (hand_gestures stayed_awake : Int) : List ScoreRow :=
  if between_1_and_5 hand_gestures ∧ between_1_and_5 stayed_awake then
    scores.map fun s =>
      if s.candidate_id = cid ∧ s.interviewer_id = uid then
        { s with hand_gestures := hand_gestures, stayed_awake := stayed_awake, updated_at := now }
      else s
  else scores

/-- The statement `INSERT INTO scores (id, candidate_id, interviewer_id, hand_gestures,
stayed_awake) VALUES (?, ?, ?, ?, ?)`: refused on a duplicate id, a duplicate
(candidate, interviewer) pair, a value outside 1..5, an unknown candidate or an unknown
interviewer. -/
def insert_score_row (db : Database) (row : ScoreRow) : Database :=
  if db.scores.any (fun s => s.id = row.id) then db
  else if db.scores.any
      (fun s => s.candidate_id = row.candidate_id && s.interviewer_id = row.interviewer_id) then db
  else if ¬ (between_1_and_5 row.hand_gestures ∧ between_1_and_5 row.stayed_awake) then db
  else if ¬ db.candidates.any (fun c => c.id = row.candidate_id) then db
  else if ¬ db.users.any (fun u => u.id = row.interviewer_id) then db
  else { db with scores := db.scores ++ [row] }

/-- Method `Database::upsert_score` (main.cpp 295-321): look the pair up with `get_my_score`,
then UPDATE the existing row or INSERT a row with a generated id. -/
def upsert_score (db : Database) (now : Nat) (rnd : Nat → Fin 16)
    (candidate_id user_id : String) (hand_gestures stayed_awake : Int) : Database :=
  let existing := get_my_score db candidate_id user_id
  if existing.exists_ then
    { db with scores :=
        (update_score_rows db.scores now (c_str candidate_id) (c_str user_id)
          hand_gestures stayed_awake) }
  else
    let id := generate_uuid rnd
    insert_score_row db
      { id := c_str id, candidate_id := c_str candidate_id, interviewer_id := c_str user_id,
        hand_gestures := hand_gestures, stayed_awake := stayed_awake,
        created_at := now, updated_at := now }

/-- Method `Database::update_feedback` (main.cpp 323-331):
`UPDATE candidates SET student_feedback = ? WHERE id = ?`. -/
def update_feedback (db : Database) (candidate_id feedback : String) : Database :=
  { db with candidates := db.candidates.map fun c =>
      if c.id = c_str candidate_id then { c with student_feedback := some (c_str feedback) }
      else c }

/-! ## Reads of the `Database` class -/

/-- Method `Database::get_position` (main.cpp 181-192): the title of the first row of
`SELECT title FROM positions WHERE id = ?`, `none` for `found == false`. -/
def get_position (db : Database) (id : String) : Option String :=
  match db.positions.filter (fun p => p.id = c_str id) with
  | [] => none
  | p :: _ => some (c_str p.title)

/-- The rows of `candidates c JOIN positions p ON c.position_id = p.id WHERE c.id = ?`. -/
def candidate_join_position (db : Database) (cid : String) :
    List (CandidateRow × PositionRow) :=
  (db.candidates.filter (fun c => c.id = cid)).flatMap fun c =>
    (db.positions.filter (fun p => c.position_id = p.id)).map fun p => (c, p)

/-- Method `Database::get_candidate` (main.cpp 235-255): the first row of the join, with
`COALESCE(c.student_feedback, '')`; `none` for `found == false`. -/
def get_candidate (db : Database) (id : String) : Option CandidateDetail :=
  match candidate_join_position db (c_str id) with
  | [] => none
  | (c, p) :: _ =>
    some { id := c_str c.id, name := c_str c.name, position_id := c_str c.position_id,
           position_title := c_str p.title,
           student_feedback := c_str (c.student_feedback.getD "") }

/-- Method `Database::get_score_stats` (main.cpp 257-277): one aggregate row over
`scores WHERE candidate_id = ?`; the averages are read only when `num_scores > 0`. -/
def get_score_stats (db : Database) (candidate_id : String) : ScoreStats :=
  let rows := db.scores.filter (fun s => s.candidate_id = c_str candidate_id)
  let num_scores : Int := rows.length
  let avg_hg := sql_avg (rows.map (fun s => s.hand_gestures))
  let avg_sa := sql_avg (rows.map (fun s => s.stayed_awake))
  if num_scores > 0 then
    { num_scores := num_scores,
      avg_hand_gestures := column_double avg_hg,
      avg_stayed_awake := column_double avg_sa,
      avg_total := column_double (sql_half_sum avg_hg avg_sa) }
  else { num_scores := num_scores, avg_hand_gestures := 0, avg_stayed_awake := 0, avg_total := 0 }

/-! ## The ranking query (main.cpp 194-220) -/

/-- The rows of `candidates c LEFT JOIN scores s ON c.id = s.candidate_id`: a candidate
without a score yields one row whose `s` columns are NULL. -/
def left_join_scores (cs : List CandidateRow) (ss : List ScoreRow) :
    List (CandidateRow × Option ScoreRow) :=
  cs.flatMap fun c =>
    match ss.filter (fun s => c.id = s.candidate_id) with
    | [] => [(c, none)]
    | m :: ms => (m :: ms).map fun s => (c, some s)

/-- One result row of the ranking query, before its conversion to `CandidateRanking`. -/
structure RankRow where
  id : String
  name : String
  count : Nat
  avg_hand_gestures : Option ℚ
  avg_stayed_awake : Option ℚ
  avg_total : Option ℚ
  deriving DecidableEq

/-- The aggregate row of one group of `GROUP BY c.id`: `c.id`, `c.name`, `COUNT(s.id)`,
`AVG(s.hand_gestures)`, `AVG(s.stayed_awake)` and the half sum of the two averages. -/
def group_row (g : List (CandidateRow × Option ScoreRow)) : Option RankRow :=
  match g with
  | [] => none
  | r :: _ =>
    let ss := g.filterMap (fun x => x.2)
    let avg_hg := sql_avg (ss.map (fun s => s.hand_gestures))
    let avg_sa := sql_avg (ss.map (fun s => s.stayed_awake))
    some { id := r.1.id, name := r.1.name, count := ss.length,
           avg_hand_gestures := avg_hg, avg_stayed_awake := avg_sa,
           avg_total := sql_half_sum avg_hg avg_sa }

/-- The rows of the ranking query before `ORDER BY`: join, `WHERE c.position_id = ?`,
one group for each distinct `c.id`. -/
def ranking_groups (db : Database) (pid : String) : List RankRow :=
  let joined := (left_join_scores db.candidates db.scores).filter
    (fun r => r.1.position_id = pid)
  let keys := (joined.map (fun r => r.1.id)).dedup
  keys.filterMap fun k => group_row (joined.filter (fun r => r.1.id = k))

/-- The order `ORDER BY (AVG(..) + AVG(..)) / 2 DESC NULLS LAST, c.name`: `a` may stand
before `b`.  Names compare as SQLite's BINARY collation does, character by character. -/
def rank_before (a b : RankRow) : Prop :=
  match a.avg_total, b.avg_total with
  | some x, some y => y < x ∨ (x = y ∧ a.name.data ≤ b.name.data)
  | some _, none => True
  | none, some _ => False
  | none, none => a.name.data ≤ b.name.data

instance : DecidableRel rank_before := fun a b => by
  unfold rank_before; split <;> infer_instance

/-- The loop of `get_candidates_for_position` that fills one `CandidateRanking`. -/
def to_ranking (r : RankRow) : CandidateRanking :=
  { id := c_str r.id, name := c_str r.name, num_scores := r.count,
    avg_hand_gestures := column_double r.avg_hand_gestures,
    avg_stayed_awake := column_double r.avg_stayed_awake,
    avg_total := column_double r.avg_total }

/-- Method `Database::get_candidates_for_position` (main.cpp 194-220): the groups sorted by
`ORDER BY` and converted row by row.  The sort is stable; SQL leaves the order of rows
that agree on both keys open. -/
def get_candidates_for_position (db : Database) (position_id : String) :
    List CandidateRanking :=
  ((ranking_groups db (c_str position_id)).insertionSort rank_before).map to_ranking

/-! ## Auxiliary definitions for the ranking query -/

/-- The aggregate row of a candidate whose joined scores are `ss`. -/
def candidate_row (c : CandidateRow) (ss : List ScoreRow) : RankRow :=
  { id := c.id, name := c.name, count := ss.length,
    avg_hand_gestures := sql_avg (ss.map (fun s => s.hand_gestures)),
    avg_stayed_awake := sql_avg (ss.map (fun s => s.stayed_awake)),
    avg_total := sql_half_sum (sql_avg (ss.map (fun s => s.hand_gestures)))
      (sql_avg (ss.map (fun s => s.stayed_awake))) }

/-- The joined rows of one candidate. -/
def join_rows (ss : List ScoreRow) (c : CandidateRow) : List (CandidateRow × Option ScoreRow) :=
  match ss.filter (fun s => c.id = s.candidate_id) with
  | [] => [(c, none)]
  | m :: ms => (m :: ms).map fun s => (c, some s)

/-! ## Store states -/

/-- The states of the store: the constraints `init_schema` declares (PRIMARY KEY, UNIQUE,
CHECK, REFERENCES), and text columns free of zero bytes, every text value having been
bound as a C string. -/
structure Database.valid (db : Database) : Prop where
  users_pk : (db.users.map (fun u => u.id)).Nodup
  users_email_unique : (db.users.map (fun u => u.email)).Nodup
  positions_pk : (db.positions.map (fun p => p.id)).Nodup
  positions_fk : ∀ p ∈ db.positions, p.created_by ∈ db.users.map (fun u => u.id)
  candidates_pk : (db.candidates.map (fun c => c.id)).Nodup
  candidates_fk : ∀ c ∈ db.candidates, c.position_id ∈ db.positions.map (fun p => p.id)
  scores_pk : (db.scores.map (fun s => s.id)).Nodup
  scores_unique : (db.scores.map (fun s => (s.candidate_id, s.interviewer_id))).Nodup
  scores_check : ∀ s ∈ db.scores,
    between_1_and_5 s.hand_gestures ∧ between_1_and_5 s.stayed_awake
  scores_fk_candidate : ∀ s ∈ db.scores, s.candidate_id ∈ db.candidates.map (fun c => c.id)
  scores_fk_interviewer : ∀ s ∈ db.scores, s.interviewer_id ∈ db.users.map (fun u => u.id)
  users_text : ∀ u ∈ db.users, NulFree u.id ∧ NulFree u.email ∧ NulFree u.display_name
  positions_text : ∀ p ∈ db.positions, NulFree p.id ∧ NulFree p.title ∧ NulFree p.created_by
  candidates_text : ∀ c ∈ db.candidates, NulFree c.id ∧ NulFree c.position_id ∧
    NulFree c.name ∧ ∀ f, c.student_feedback = some f → NulFree f
  scores_text : ∀ s ∈ db.scores,
    NulFree s.id ∧ NulFree s.candidate_id ∧ NulFree s.interviewer_id

/-! ## The scenario of the specification -/

/-- Users A, B and C, and the position "Chemistry Lecturer" created by A. -/
def scenario_position : String × Database :=
  create_position
    (ensure_user (ensure_user (ensure_user Database.empty 0 "A" "a@uni.edu" "Ann")
      0 "B" "b@uni.edu" "Bob") 0 "C" "c@uni.edu" "Cy")
    1 (fun _ => 0) "Chemistry Lecturer" "A"

/-- Candidate Smith added to the position. -/
def scenario_smith : String × Database :=
  create_candidate scenario_position.2 2 (fun _ => 1) scenario_position.1 "Smith"

/-- Candidate Jones added to the position. -/
def scenario_jones : String × Database :=
  create_candidate scenario_smith.2 3 (fun _ => 2) scenario_position.1 "Jones"

/-- Interviewer B scores Smith (4,5) and Jones (2,2); interviewer C scores Smith (2,3). -/
def scenario : Database :=
  upsert_score
    (upsert_score
      (upsert_score scenario_jones.2 4 (fun _ => 3) scenario_smith.1 "B" 4 5)
      5 (fun _ => 4) scenario_jones.1 "B" 2 2)
    6 (fun _ => 5) scenario_smith.1 "C" 2 3

/-- The persisted scores of the candidate with id `cid`. -/
def scores_of (db : Database) (cid : String) : List ScoreRow :=
  db.scores.filter (fun s => s.candidate_id = cid)

/-- The scenario with one more candidate, Aaron, whom nobody has scored. -/
def scenario_aaron : String × Database :=
  create_candidate scenario 7 (fun _ => 6) scenario_position.1 "Aaron"

/-! ## Reachable store states -/

/-- The store states reachable from a new database by the writes of the `Database`
class, each with arbitrary arguments. -/
inductive Reachable : Database → Prop
  | init : Reachable Database.empty
  | ensure_user (db : Database) (now : Nat) (id email name : String) :
      Reachable db → Reachable (ensure_user db now id email name)
  | create_position (db : Database) (now : Nat) (rnd : Nat → Fin 16)
      (title user_id : String) :
      Reachable db → Reachable (create_position db now rnd title user_id).2
  | create_candidate (db : Database) (now : Nat) (rnd : Nat → Fin 16)
      (position_id name : String) :
      Reachable db → Reachable (create_candidate db now rnd position_id name).2
  | upsert_score (db : Database) (now : Nat) (rnd : Nat → Fin 16)
      (candidate_id user_id : String) (hand_gestures stayed_awake : Int) :
      Reachable db →
        Reachable (upsert_score db now rnd candidate_id user_id hand_gestures stayed_awake)
  | update_feedback (db : Database) (candidate_id feedback : String) :
      Reachable db → Reachable (update_feedback db candidate_id feedback)

/-- The scenario after two further submissions: interviewer C rescoring Smith with (3,3),
and interviewer B submitting (9,0) for Jones directly through `upsert_score`. -/
def scenario_resubmitted : Database :=
  upsert_score (upsert_score scenario 7 (fun _ => 6) scenario_smith.1 "C" 3 3)
    8 (fun _ => 7) scenario_jones.1 "B" 9 0

/-! ## The request handler `POST /candidates/:id` (main.cpp 460-496) -/

/-- The exceptions `std::stoi` throws. -/
inductive StoiError where
  | invalid_argument
  | out_of_range
  deriving DecidableEq, Repr

/-- The C function `isspace` in the "C" locale: space, `\t`, `\n`, `\v`, `\f`, `\r`. -/
def isspace (c : Char) : Bool := c = ' ' || (9 ≤ c.toNat && c.toNat ≤ 13)

/-- The call `std::stoi(str)`: `strtol` in base 10 on the C string (leading white space skipped, an
optional sign, then digits up to the first other character); `invalid_argument` when no
digit was read, `out_of_range` when the value does not fit an `int`. -/
def stoi (str : String) : Except StoiError Int :=
  let cs := (c_str str).data.dropWhile isspace
  let negative := cs.head? = some '-'
  let rest := match cs with
    | '-' :: r => r
    | '+' :: r => r
    | _ => cs
  let digits := rest.takeWhile Char.isDigit
  if digits.isEmpty then .error .invalid_argument
  else
    let n : Int := digits.foldl (fun acc d => 10 * acc + ((d.toNat - '0'.toNat : Nat) : Int)) 0
    let v : Int := if negative then -n else n
    if v < -2147483648 ∨ 2147483647 < v then .error .out_of_range else .ok v

/-- What the handler reads from a request: the three identity headers as
`get_header_value` returns them (empty when absent), the capture `req.matches[1]`, and the
map `parse_form(req.body)`. -/
structure Request where
  sso_user_id : String
  sso_email : String
  sso_name : String
  path_id : String
  params : List (String × String)

/-- The expression `params[key]` on the `std::map`: the empty string for a missing key. -/
def param (params : List (String × String)) (key : String) : String :=
  (params.lookup key).getD ""

structure User where
  id : String
  email : String
  name : String
  deriving DecidableEq, Repr

/-- The function `get_current_user` (main.cpp 341-356): the identity of the headers, or the development
identity when the user id header is empty; the user is ensured in the store. -/
def get_current_user (req : Request) (db : Database) (now : Nat) : User × Database :=
  let user : User :=
    if req.sso_user_id.isEmpty then
      { id := "dev-user-1", email := "dev@university.edu", name := "Dev User" }
    else { id := req.sso_user_id, email := req.sso_email, name := req.sso_name }
  (user, ensure_user db now user.id user.email user.name)

/-- How a handler ends: a redirect, the candidate page rendered from the arguments of
`candidate_detail_page`, or an exception of `std::stoi` that leaves the handler. -/
inductive Response where
  | redirect (location : String)
  | candidate_detail_page (user_name flash : String) (candidate : CandidateDetail)
      (stats : ScoreStats) (my_score : MyScore)
  | uncaught (e : StoiError)
  deriving DecidableEq

/-- The tail of the handler, "Refresh data": the page from the store as it is now. -/
def refresh (db : Database) (user : User) (candidate_id flash : String)
    (candidate : CandidateDetail) : Response :=
  .candidate_detail_page user.name flash
    ((get_candidate db candidate_id).getD candidate)
    (get_score_stats db candidate_id) (get_my_score db candidate_id user.id)

/-- The handler of `POST /candidates/:id` (main.cpp 460-496): the store after the request
and the response. -/
def post_candidate (db : Database) (now : Nat) (rnd : Nat → Fin 16) (req : Request) :
    Database × Response :=
  let (user, db1) := get_current_user req db now
  let candidate_id := req.path_id
  match get_candidate db1 candidate_id with
  | none => (db1, .redirect "/")
  | some candidate =>
    let action := param req.params "action"
    if action = "score" then
      match stoi (param req.params "hand_gestures") with
      | .error e => (db1, .uncaught e)
      | .ok hand_gestures =>
        match stoi (param req.params "stayed_awake") with
        | .error e => (db1, .uncaught e)
        | .ok stayed_awake =>
          if hand_gestures ≥ 1 ∧ hand_gestures ≤ 5 ∧ stayed_awake ≥ 1 ∧ stayed_awake ≤ 5 then
            let db2 := upsert_score db1 now rnd candidate_id user.id hand_gestures stayed_awake
            (db2, refresh db2 user candidate_id "Score saved." candidate)
          else (db1, refresh db1 user candidate_id "Scores must be between 1 and 5." candidate)
    else if action = "feedback" then
      let feedback := param req.params "student_feedback"
      let db2 := update_feedback db1 candidate_id feedback
      (db2, refresh db2 user candidate_id "Feedback saved." candidate)
    else (db1, refresh db1 user candidate_id "" candidate)

/-- A score submission for Smith by the known interviewer B with the given two fields. -/
def score_request (hand_gestures stayed_awake : String) : Request :=
  { sso_user_id := "B", sso_email := "b@uni.edu", sso_name := "Bob",
    path_id := scenario_smith.1,
    params := [("action", "score"), ("hand_gestures", hand_gestures),
      ("stayed_awake", stayed_awake)] }

/-- A score submission (7,3) for Smith by interviewer D, whom the store has not seen. -/
def newcomer_request : Request :=
  { sso_user_id := "D", sso_email := "d@uni.edu", sso_name := "Dee",
    path_id := scenario_smith.1,
    params := [("action", "score"), ("hand_gestures", "7"), ("stayed_awake", "3")] }

/-- A score submission for Smith by interviewer B whose form lacks both score fields. -/
def fieldless_request : Request :=
  { sso_user_id := "B", sso_email := "b@uni.edu", sso_name := "Bob",
    path_id := scenario_smith.1, params := [("action", "score")] }

/-- The flash message of a rendered page, `none` for a redirect or an exception. -/
def Response.flash : Response → Option String
  | .candidate_detail_page _ flash _ _ _ => some flash
  | _ => none

/-! ## The request handlers that create positions and candidates (main.cpp 376-440) -/

/-- How the two creating handlers end: a redirect, or one of the two form pages rendered
from the arguments of `position_form_page` and `candidate_form_page`. -/
inductive FormResponse where
  | redirect (location : String)
  | position_form_page (user_name flash : String)
  | candidate_form_page (user_name flash position_id position_title : String)
  deriving DecidableEq, Repr

/-- The flash message of a rendered form page, `none` for a redirect. -/
def FormResponse.flash : FormResponse → Option String
  | .redirect _ => none
  | .position_form_page _ flash => some flash
  | .candidate_form_page _ flash _ _ => some flash

/-- The handler of `POST /positions/new` (main.cpp 376-388): the store after the request
and the response. -/
def post_position_new (db : Database) (now : Nat) (rnd : Nat → Fin 16) (req : Request) :
    Database × FormResponse :=
  let (user, db1) := get_current_user req db now
  let title := param req.params "title"
  if title = "" then (db1, .position_form_page user.name "Position title is required.")
  else
    let (id, db2) := create_position db1 now rnd title user.id
    (db2, .redirect ("/positions/" ++ id))

/-- The handler of `POST /positions/:id/candidates/new` (main.cpp 420-440): the store
after the request and the response. -/
def post_candidate_new (db : Database) (now : Nat) (rnd : Nat → Fin 16) (req : Request) :
    Database × FormResponse :=
  let (user, db1) := get_current_user req db now
  let position_id := req.path_id
  match get_position db1 position_id with
  | none => (db1, .redirect "/")
  | some title =>
    let name := param req.params "name"
    if name = "" then
      (db1, .candidate_form_page user.name "Candidate name is required." position_id title)
    else
      let (id, db2) := create_candidate db1 now rnd position_id name
      (db2, .redirect ("/candidates/" ++ id))

/-- A request by interviewer B to add a candidate with the given name to the position
with the given id. -/
def candidate_request (position_id name : String) : Request :=
  { sso_user_id := "B", sso_email := "b@uni.edu", sso_name := "Bob",
    path_id := position_id, params := [("name", name)] }

/-- A request by interviewer B to create a position with the given title. -/
def position_request (title : String) : Request :=
  { sso_user_id := "B", sso_email := "b@uni.edu", sso_name := "Bob",
    path_id := "", params := [("title", title)] }

/-! ## `url_decode` (main.cpp 30-49) -/

/-- The value of a hexadecimal digit, `none` for any other character. -/
def hex_digit_value (c : Char) : Option Nat :=
  if '0' ≤ c ∧ c ≤ '9' then some (c.toNat - '0'.toNat)
  else if 'a' ≤ c ∧ c ≤ 'f' then some (c.toNat - 'a'.toNat + 10)
  else if 'A' ≤ c ∧ c ≤ 'F' then some (c.toNat - 'A'.toNat + 10)
  else none

/-- The extraction `iss >> std::hex >> val` from a stream over the two characters
`s.substr(i + 1, 2)`, `none` when it fails.  The stream skips leading white space, takes
an optional sign and then hexadecimal digits as far as they go; it fails when it has read
no digit, and on "0x", a prefix without digits. -/
def extract_hex (c1 c2 : Char) : Option Int :=
  match hex_digit_value c1 with
  | some h1 =>
    match hex_digit_value c2 with
    | some h2 => some (16 * (h1 : Int) + (h2 : Int))
    | none => if c1 = '0' ∧ (c2 = 'x' ∨ c2 = 'X') then none else some (h1 : Int)
  | none =>
    if isspace c1 ∨ c1 = '+' then (hex_digit_value c2).map (fun h2 => (h2 : Int))
    else if c1 = '-' then (hex_digit_value c2).map (fun h2 => - (h2 : Int))
    else none

/-- The conversion `static_cast<char>(val)`: the `int` reduced to one byte. -/
def to_char (val : Int) : Char := Char.ofNat (val % 256).toNat

/-- The loop of `url_decode` over the characters from index `i` on; `skip` counts the
characters still to be passed over after `i += 2`. -/
def url_decode_loop : Nat → List Char → List Char
  | _, [] => []
  | skip + 1, _ :: rest => url_decode_loop skip rest
  | 0, c :: rest =>
    if c = '%' then
      match rest with
      | c1 :: c2 :: _ =>
        match extract_hex c1 c2 with
        | some val => to_char val :: url_decode_loop 2 rest
        | none => c :: url_decode_loop 0 rest
      | _ => c :: url_decode_loop 0 rest
    else if c = '+' then ' ' :: url_decode_loop 0 rest
    else c :: url_decode_loop 0 rest

/-- The function `url_decode` (main.cpp 30-49). -/
def url_decode (s : String) : String := ⟨url_decode_loop 0 s.data⟩

/-! ## `html_escape` (templates.h 9-22) -/

/-- The `switch` of `html_escape`: what one character appends to the result. -/
def html_escape_char (c : Char) : List Char :=
  if c = '&' then "&amp;".data
  else if c = '<' then "&lt;".data
  else if c = '>' then "&gt;".data
  else if c = '\x22' then "&quot;".data
  else if c = '\x27' then "&#39;".data
  else [c]

/-- The loop `for (char c : s)` of `html_escape`. -/
def html_escape_chars : List Char → List Char
  | [] => []
  | c :: cs => html_escape_char c ++ html_escape_chars cs

/-- The function `html_escape` (templates.h 9-22). -/
def html_escape (s : String) : String := ⟨html_escape_chars s.data⟩

/-- The five entities `html_escape` writes. -/
def html_entities : List (List Char) :=
  ["&amp;".data, "&lt;".data, "&gt;".data, "&quot;".data, "&#39;".data]

/-- Replacing the five entities by their characters, from left to right; `skip` counts
the characters of an entity just replaced that are still to be passed over. -/
def html_unescape_loop : Nat → List Char → List Char
  | _, [] => []
  | skip + 1, _ :: rest => html_unescape_loop skip rest
  | 0, c :: rest =>
    if c = '&' then
      if "amp;".data.isPrefixOf rest then '&' :: html_unescape_loop 4 rest
      else if "lt;".data.isPrefixOf rest then '<' :: html_unescape_loop 3 rest
      else if "gt;".data.isPrefixOf rest then '>' :: html_unescape_loop 3 rest
      else if "quot;".data.isPrefixOf rest then '\x22' :: html_unescape_loop 5 rest
      else if "#39;".data.isPrefixOf rest then '\x27' :: html_unescape_loop 4 rest
      else c :: html_unescape_loop 0 rest
    else c :: html_unescape_loop 0 rest

/-- Replacing the five entities of a string by their characters. -/
def html_unescape (s : String) : String := ⟨html_unescape_loop 0 s.data⟩

/-! # Properties -/

/-! ## The ranking query, group by group -/

theorem left_join_scores_eq (cs : List CandidateRow) (ss : List ScoreRow) :
    left_join_scores cs ss = cs.flatMap (join_rows ss) := rfl

theorem join_rows_ne_nil (ss : List ScoreRow) (c : CandidateRow) : join_rows ss c ≠ [] := by
  unfold join_rows; split <;> simp

theorem join_rows_fst (ss : List ScoreRow) (c : CandidateRow) :
    ∀ r ∈ join_rows ss c, r.1 = c := by
  unfold join_rows; split <;> simp

theorem join_rows_scores (ss : List ScoreRow) (c : CandidateRow) :
    (join_rows ss c).filterMap (fun x => x.2) = ss.filter (fun s => c.id = s.candidate_id) := by
  unfold join_rows
  split
  · rename_i h; simp [h]
  · rename_i m ms h
    have hc : ((fun x : CandidateRow × Option ScoreRow => x.2) ∘ fun s => (c, some s)) = some := rfl
    rw [h, List.filterMap_map, hc, List.filterMap_some]

theorem group_row_join_rows (ss : List ScoreRow) (c : CandidateRow) :
    group_row (join_rows ss c) =
      some (candidate_row c (ss.filter (fun s => c.id = s.candidate_id))) := by
  have hne := join_rows_ne_nil ss c
  have hfst := join_rows_fst ss c
  have hsc := join_rows_scores ss c
  cases hj : join_rows ss c with
  | nil => exact absurd hj hne
  | cons r t =>
    have hr : r.1 = c := hfst r (by simp [hj])
    rw [hj] at hsc
    simp only [group_row, hsc, candidate_row, hr]

theorem filter_flatMap_join_rows (ss : List ScoreRow) (p : CandidateRow → Bool)
    (cs : List CandidateRow) :
    (cs.flatMap (join_rows ss)).filter (fun r => p r.1) = (cs.filter p).flatMap (join_rows ss) := by
  induction cs with
  | nil => rfl
  | cons c t ih =>
    have hc : (join_rows ss c).filter (fun r => p r.1) = if p c then join_rows ss c else [] := by
      by_cases hp : p c = true
      · rw [if_pos hp, List.filter_eq_self]
        intro r hr; rw [join_rows_fst ss c r hr]; exact hp
      · rw [if_neg hp, List.filter_eq_nil_iff]
        intro r hr; rw [join_rows_fst ss c r hr]; exact hp
    rw [List.flatMap_cons, List.filter_append, ih, hc]
    by_cases hp : p c = true
    · simp [hp, List.filter_cons]
    · simp [hp, List.filter_cons]

theorem dedup_keys_join_rows (ss : List ScoreRow) (cs : List CandidateRow)
    (hnd : (cs.map (fun c => c.id)).Nodup) :
    (((cs.flatMap (join_rows ss)).map (fun r => r.1.id))).dedup = cs.map (fun c => c.id) := by
  induction cs with
  | nil => rfl
  | cons c t ih =>
    rw [List.map_cons, List.nodup_cons] at hnd
    rw [List.flatMap_cons, List.map_append, List.map_cons]
    have hrep : ∀ l : List (CandidateRow × Option ScoreRow), l ≠ [] → (∀ r ∈ l, r.1 = c) →
        ∀ rest : List String, c.id ∉ rest →
          (l.map (fun r => r.1.id) ++ rest).dedup = c.id :: rest.dedup := by
      intro l
      induction l with
      | nil => intro h; exact absurd rfl h
      | cons r l ihl =>
        intro _ hall rest hrest
        have hr : r.1 = c := hall r (by simp)
        by_cases hl : l = []
        · subst hl
          simp only [List.map_cons, List.map_nil, List.cons_append, List.nil_append, hr]
          exact List.dedup_cons_of_not_mem hrest
        · have hall2 : ∀ r ∈ l, r.1 = c := fun x hx => hall x (by simp [hx])
          have := ihl hl hall2 rest hrest
          simp only [List.map_cons, List.cons_append, hr]
          rw [List.dedup_cons_of_mem, this]
          obtain ⟨x, l2, rfl⟩ := List.exists_cons_of_ne_nil hl
          simp [hall2 x (by simp)]
    rw [hrep _ (join_rows_ne_nil ss c) (join_rows_fst ss c), ih hnd.2]
    intro hmem
    apply hnd.1
    simp only [List.mem_map, List.mem_flatMap] at hmem ⊢
    obtain ⟨r, ⟨c2, hc2, hr⟩, hid⟩ := hmem
    exact ⟨c2, hc2, by rw [← hid, join_rows_fst ss c2 r hr]⟩

theorem filter_id_flatMap_join_rows (ss : List ScoreRow) (cs : List CandidateRow)
    (hnd : (cs.map (fun c => c.id)).Nodup) (c : CandidateRow) (hc : c ∈ cs) :
    (cs.flatMap (join_rows ss)).filter (fun r => r.1.id = c.id) = join_rows ss c := by
  rw [filter_flatMap_join_rows ss (fun x => x.id = c.id) cs]
  have hf : cs.filter (fun x => decide (x.id = c.id)) = [c] := by
    induction cs with
    | nil => simp at hc
    | cons a t ih =>
      rw [List.map_cons, List.nodup_cons] at hnd
      rcases List.mem_cons.1 hc with rfl | hct
      · have : t.filter (fun x => decide (x.id = c.id)) = [] := by
          rw [List.filter_eq_nil_iff]
          intro x hx hxe
          exact hnd.1 (List.mem_map.2 ⟨x, hx, of_decide_eq_true hxe⟩)
        simp [List.filter_cons, this]
      · have hne : a.id ≠ c.id := fun he => hnd.1 (List.mem_map.2 ⟨c, hct, he.symm⟩)
        simp [List.filter_cons, hne, ih hnd.2 hct]
  rw [hf]; simp

/-- Under the primary key of `candidates`, the ranking query has one row for each
candidate of the position, aggregated over the scores of that candidate. -/
theorem ranking_groups_eq (db : Database) (pid : String)
    (hnd : (db.candidates.map (fun c => c.id)).Nodup) :
    ranking_groups db pid =
      (db.candidates.filter (fun c => c.position_id = pid)).map
        (fun c => candidate_row c (db.scores.filter (fun s => c.id = s.candidate_id))) := by
  have hsub : ((db.candidates.filter (fun c => c.position_id = pid)).map (fun c => c.id)).Nodup :=
    hnd.sublist ((List.filter_sublist _).map _)
  unfold ranking_groups
  simp only [left_join_scores_eq]
  rw [filter_flatMap_join_rows db.scores (fun c => c.position_id = pid) db.candidates,
    dedup_keys_join_rows db.scores _ hsub, List.filterMap_map]
  generalize db.candidates.filter (fun c => decide (c.position_id = pid)) = cs at hsub
  have key : ∀ c ∈ cs, ((fun k => group_row ((cs.flatMap (join_rows db.scores)).filter
      (fun r => decide (r.1.id = k)))) ∘ fun c => c.id) c =
      some (candidate_row c (db.scores.filter (fun s => c.id = s.candidate_id))) := by
    intro c hc
    simp only [Function.comp]
    rw [filter_id_flatMap_join_rows db.scores cs hsub c hc, group_row_join_rows]
  rw [List.filterMap_congr key]
  rw [← List.filterMap_eq_map]
  rfl

/-! ## Strings and aggregates -/

theorem c_str_of_nulFree {s : String} (h : NulFree s) : c_str s = s := by
  unfold c_str
  have : s.data.takeWhile (fun c => decide (c ≠ '\x00')) = s.data := by
    rw [List.takeWhile_eq_self_iff]
    intro c hc
    simp only [decide_eq_true_eq]
    rintro rfl
    exact h hc
  rw [this]

theorem nulFree_c_str (s : String) : NulFree (c_str s) := by
  unfold NulFree c_str
  intro h
  have := List.mem_takeWhile_imp h
  simp at this

theorem c_str_c_str (s : String) : c_str (c_str s) = c_str s :=
  c_str_of_nulFree (nulFree_c_str s)

theorem length_le_sum_of_one_le (xs : List Int) (h : ∀ x ∈ xs, 1 ≤ x) :
    (xs.length : Int) ≤ xs.sum := by
  induction xs with
  | nil => simp
  | cons a t ih =>
    have h1 := h a (by simp)
    have h2 := ih (fun x hx => h x (by simp [hx]))
    simp only [List.length_cons, List.sum_cons]
    push_cast
    omega

theorem sql_avg_eq_none {xs : List Int} : sql_avg xs = none ↔ xs = [] := by
  unfold sql_avg
  cases xs <;> simp

theorem one_le_of_sql_avg {xs : List Int} (h : ∀ x ∈ xs, 1 ≤ x) {v : ℚ}
    (hv : sql_avg xs = some v) : 1 ≤ v := by
  unfold sql_avg at hv
  cases xs with
  | nil => simp at hv
  | cons a t =>
    simp only [List.isEmpty_cons, Bool.false_eq_true, if_false, Option.some.injEq] at hv
    rw [← hv]
    have hlen : (0 : ℚ) < (((a :: t).length : ℕ) : ℚ) := by
      simp only [List.length_cons]; positivity
    rw [le_div_iff₀ hlen, one_mul]
    have := length_le_sum_of_one_le (a :: t) h
    exact_mod_cast this

theorem one_le_of_sql_half_sum {a b : Option ℚ} (ha : ∀ v, a = some v → 1 ≤ v)
    (hb : ∀ v, b = some v → 1 ≤ v) {x : ℚ} (hx : sql_half_sum a b = some x) : 1 ≤ x := by
  unfold sql_half_sum at hx
  split at hx
  · rename_i u v
    simp only [Option.some.injEq] at hx
    have h1 := ha u rfl
    have h2 := hb v rfl
    rw [← hx]; linarith
  · simp at hx

/-! ## The order of the ranking -/

theorem rank_before_total : IsTotal RankRow rank_before := ⟨fun a b => by
  unfold rank_before
  cases ha : a.avg_total <;> cases hb : b.avg_total <;> simp only
  · exact le_total _ _
  · exact Or.inr trivial
  · exact Or.inl trivial
  · rename_i x y
    rcases lt_trichotomy x y with h | h | h
    · exact Or.inr (Or.inl h)
    · rcases le_total a.name.data b.name.data with hn | hn
      · exact Or.inl (Or.inr ⟨h, hn⟩)
      · exact Or.inr (Or.inr ⟨h.symm, hn⟩)
    · exact Or.inl (Or.inl h)⟩

theorem rank_before_trans : IsTrans RankRow rank_before := ⟨fun a b c => by
  unfold rank_before
  cases ha : a.avg_total <;> cases hb : b.avg_total <;> cases hc : c.avg_total <;>
    simp only <;> intro h1 h2
  · exact le_trans h1 h2
  · exact h2
  · exact h1.elim
  · exact h1.elim
  · trivial
  · exact h2.elim
  · trivial
  · rename_i x y z
    rcases h1 with h1 | ⟨h1, n1⟩ <;> rcases h2 with h2 | ⟨h2, n2⟩
    · exact Or.inl (lt_trans h2 h1)
    · exact Or.inl (h2 ▸ h1)
    · exact Or.inl (h1 ▸ h2)
    · exact Or.inr ⟨h1.trans h2, le_trans n1 n2⟩⟩

theorem sorted_ranking (db : Database) (pid : String) :
    ((ranking_groups db pid).insertionSort rank_before).Sorted rank_before :=
  @List.sorted_insertionSort _ rank_before _ rank_before_total rank_before_trans _

/-- In a valid store every row of the ranking query stems from a candidate of the
position, with a zero-free name and, when it has an average, an average of at least 1. -/
theorem ranking_groups_row (db : Database) (hv : db.valid) (pid : String) (r : RankRow)
    (hr : r ∈ ranking_groups db pid) :
    ∃ c ∈ db.candidates, c.position_id = pid ∧
      r = candidate_row c (db.scores.filter (fun s => c.id = s.candidate_id)) ∧
      NulFree r.id ∧ NulFree r.name ∧ ∀ x, r.avg_total = some x → 1 ≤ x := by
  rw [ranking_groups_eq db pid hv.candidates_pk, List.mem_map] at hr
  obtain ⟨c, hc, rfl⟩ := hr
  rw [List.mem_filter] at hc
  refine ⟨c, hc.1, of_decide_eq_true hc.2, rfl, (hv.candidates_text c hc.1).1,
    (hv.candidates_text c hc.1).2.2.1, ?_⟩
  intro x hx
  simp only [candidate_row] at hx
  refine one_le_of_sql_half_sum ?_ ?_ hx
  · intro v hv'
    refine one_le_of_sql_avg ?_ hv'
    intro y hy
    simp only [List.mem_map, List.mem_filter] at hy
    obtain ⟨s, ⟨hs, _⟩, rfl⟩ := hy
    exact (hv.scores_check s hs).1.1
  · intro v hv'
    refine one_le_of_sql_avg ?_ hv'
    intro y hy
    simp only [List.mem_map, List.mem_filter] at hy
    obtain ⟨s, ⟨hs, _⟩, rfl⟩ := hy
    exact (hv.scores_check s hs).2.1

theorem scenario_valid : scenario.valid :=
  ⟨by decide, by decide, by decide, by decide, by decide, by decide, by decide, by decide,
   by decide, by decide, by decide, by decide, by decide, by decide, by decide⟩

/-- C1: in every store state the ranking returned for a position is ordered descending by
`avg_total`, entries with equal `avg_total` standing in ascending order of name; and in
the scenario of the specification the ranking is Smith (3, 4, 3.5, two scores), then Jones
(overall 2, one score). -/
theorem ranking_order (db : Database) (hv : db.valid) (position_id : String) :
    (get_candidates_for_position db position_id).Pairwise
      (fun a b => b.avg_total < a.avg_total ∨ (a.avg_total = b.avg_total ∧ a.name ≤ b.name)) ∧
    get_candidates_for_position scenario scenario_position.1 =
      [ { id := scenario_smith.1, name := "Smith", num_scores := 2,
          avg_hand_gestures := 3, avg_stayed_awake := 4, avg_total := 7 / 2 },
        { id := scenario_jones.1, name := "Jones", num_scores := 1,
          avg_hand_gestures := 2, avg_stayed_awake := 2, avg_total := 2 } ] := by
  refine ⟨?_, by decide!⟩
  unfold get_candidates_for_position
  rw [List.pairwise_map]
  refine List.Pairwise.imp_of_mem ?_ (sorted_ranking db (c_str position_id))
  intro a b ha hb hab
  rw [List.mem_insertionSort] at ha hb
  obtain ⟨_, _, _, _, _, han, hax⟩ := ranking_groups_row db hv _ a ha
  obtain ⟨_, _, _, _, _, hbn, hbx⟩ := ranking_groups_row db hv _ b hb
  simp only [to_ranking, c_str_of_nulFree han, c_str_of_nulFree hbn, String.le_iff_toList_le,
    String.toList]
  unfold rank_before at hab
  cases hA : a.avg_total <;> cases hB : b.avg_total <;> rw [hA, hB] at hab <;>
    simp only [column_double, Option.getD]
  · exact Or.inr ⟨trivial, hab⟩
  · exact hab.elim
  · rename_i x
    exact Or.inl (lt_of_lt_of_le one_pos (hax x hA))
  · exact hab

/-- C1, at the scenario of the specification. -/
theorem ranking_order_witness :
    scenario.valid ∧
    (get_candidates_for_position scenario scenario_position.1).Pairwise
      (fun a b => b.avg_total < a.avg_total ∨ (a.avg_total = b.avg_total ∧ a.name ≤ b.name)) :=
  ⟨scenario_valid, (ranking_order scenario scenario_valid scenario_position.1).1⟩

/-! ## Candidates without a score -/

theorem filter_candidate_id_eq (db : Database) (cid : String) :
    db.scores.filter (fun s => cid = s.candidate_id) = scores_of db cid := by
  unfold scores_of
  congr 1
  funext s
  simp only [eq_comm]

theorem candidate_row_avg_total_eq_none (c : CandidateRow) (ss : List ScoreRow) :
    (candidate_row c ss).avg_total = none ↔ ss = [] := by
  cases ss with
  | nil => simp [candidate_row, sql_avg, sql_half_sum]
  | cons s t => simp [candidate_row, sql_avg, sql_half_sum]

theorem scenario_aaron_valid : scenario_aaron.2.valid :=
  ⟨by decide, by decide, by decide, by decide, by decide, by decide, by decide, by decide,
   by decide, by decide, by decide, by decide, by decide, by decide, by decide⟩

/-- C2: in every store state the ranking returned for a position never lists a candidate
without scores before a candidate with at least one score, and every candidate without
scores is listed with `num_scores = 0`. -/
theorem unscored_ranked_last (db : Database) (hv : db.valid) (position_id : String) :
    (get_candidates_for_position db position_id).Pairwise
      (fun a b => ¬ (scores_of db a.id = [] ∧ scores_of db b.id ≠ [])) ∧
    ∀ e ∈ get_candidates_for_position db position_id,
      scores_of db e.id = [] → e.num_scores = 0 := by
  unfold get_candidates_for_position
  constructor
  · rw [List.pairwise_map]
    refine List.Pairwise.imp_of_mem ?_ (sorted_ranking db (c_str position_id))
    intro a b ha hb hab
    rw [List.mem_insertionSort] at ha hb
    obtain ⟨ca, _, _, rfl, hai, _, _⟩ := ranking_groups_row db hv _ _ ha
    obtain ⟨cb, _, _, rfl, hbi, _, _⟩ := ranking_groups_row db hv _ _ hb
    simp only [to_ranking, c_str_of_nulFree hai, c_str_of_nulFree hbi]
    rintro ⟨h0, h1⟩
    simp only [candidate_row] at h0 h1
    rw [← filter_candidate_id_eq] at h0 h1
    have hA := (candidate_row_avg_total_eq_none ca _).2 h0
    have hB : (candidate_row cb (db.scores.filter (fun s => cb.id = s.candidate_id))).avg_total
        ≠ none := fun h => h1 ((candidate_row_avg_total_eq_none cb _).1 h)
    unfold rank_before at hab
    rw [hA] at hab
    cases hB' : (candidate_row cb (db.scores.filter
        (fun s => cb.id = s.candidate_id))).avg_total with
    | none => exact hB hB'
    | some y => rw [hB'] at hab; exact hab
  · intro e he
    rw [List.mem_map] at he
    obtain ⟨r, hr, rfl⟩ := he
    rw [List.mem_insertionSort] at hr
    obtain ⟨c, _, _, rfl, hi, _, _⟩ := ranking_groups_row db hv _ _ hr
    simp only [to_ranking, c_str_of_nulFree hi]
    intro h0
    simp only [candidate_row] at h0 ⊢
    rw [← filter_candidate_id_eq] at h0
    rw [h0]; rfl

/-- C2, at the scenario extended with the unscored candidate Aaron, who is listed last
although his name sorts first. -/
theorem unscored_ranked_last_witness :
    scenario_aaron.2.valid ∧
    ((get_candidates_for_position scenario_aaron.2 scenario_position.1).Pairwise
      (fun a b => ¬ (scores_of scenario_aaron.2 a.id = [] ∧
        scores_of scenario_aaron.2 b.id ≠ [])) ∧
     ∀ e ∈ get_candidates_for_position scenario_aaron.2 scenario_position.1,
      scores_of scenario_aaron.2 e.id = [] → e.num_scores = 0) ∧
    (get_candidates_for_position scenario_aaron.2 scenario_position.1).map
      (fun e => (e.name, e.num_scores)) = [("Smith", 2), ("Jones", 1), ("Aaron", 0)] :=
  ⟨scenario_aaron_valid,
   unscored_ranked_last scenario_aaron.2 scenario_aaron_valid scenario_position.1,
   by decide!⟩

/-! ## The ranking against `get_score_stats` -/

theorem get_score_stats_of_nulFree (db : Database) {cid : String} (h : NulFree cid) :
    get_score_stats db cid =
      if scores_of db cid = [] then
        { num_scores := 0, avg_hand_gestures := 0, avg_stayed_awake := 0, avg_total := 0 }
      else
        { num_scores := (scores_of db cid).length,
          avg_hand_gestures :=
            column_double (sql_avg ((scores_of db cid).map (fun s => s.hand_gestures))),
          avg_stayed_awake :=
            column_double (sql_avg ((scores_of db cid).map (fun s => s.stayed_awake))),
          avg_total := column_double (sql_half_sum
            (sql_avg ((scores_of db cid).map (fun s => s.hand_gestures)))
            (sql_avg ((scores_of db cid).map (fun s => s.stayed_awake)))) } := by
  unfold get_score_stats
  rw [c_str_of_nulFree h]
  have e : db.scores.filter (fun s => s.candidate_id = cid) = scores_of db cid := rfl
  simp only [e]
  generalize scores_of db cid = l
  cases l with
  | nil => simp
  | cons s t =>
    have : ((List.length (s :: t) : ℕ) : Int) > 0 := by
      simp only [List.length_cons]; omega
    rw [if_pos this, if_neg (by simp)]

theorem to_ranking_candidate_row (db : Database) (c : CandidateRow) (h : NulFree c.id) :
    let e := to_ranking (candidate_row c (db.scores.filter (fun s => c.id = s.candidate_id)))
    e.id = c.id ∧
    e.num_scores = (get_score_stats db e.id).num_scores ∧
    e.avg_hand_gestures = (get_score_stats db e.id).avg_hand_gestures ∧
    e.avg_stayed_awake = (get_score_stats db e.id).avg_stayed_awake ∧
    e.avg_total = (get_score_stats db e.id).avg_total := by
  simp only [to_ranking, candidate_row, c_str_of_nulFree h, get_score_stats_of_nulFree db h,
    filter_candidate_id_eq]
  cases hs : scores_of db c.id with
  | nil => simp [sql_avg, sql_half_sum, column_double]
  | cons s t => simp

/-- C3: in every store state the ranking returned for a position has exactly one entry for
each candidate of that position and none for any other candidate, and every entry carries
the count and the three averages that `get_score_stats` returns for its candidate.  The
position is the one the bound C string `position_id.c_str()` names. -/
theorem ranking_entries (db : Database) (hv : db.valid) (position_id : String) :
    ((get_candidates_for_position db position_id).map (fun e => e.id)).Perm
      ((db.candidates.filter (fun c => c.position_id = c_str position_id)).map
        (fun c => c.id)) ∧
    ((get_candidates_for_position db position_id).map (fun e => e.id)).Nodup ∧
    ∀ e ∈ get_candidates_for_position db position_id,
      e.num_scores = (get_score_stats db e.id).num_scores ∧
      e.avg_hand_gestures = (get_score_stats db e.id).avg_hand_gestures ∧
      e.avg_stayed_awake = (get_score_stats db e.id).avg_stayed_awake ∧
      e.avg_total = (get_score_stats db e.id).avg_total := by
  have hperm : ((get_candidates_for_position db position_id).map (fun e => e.id)).Perm
      ((db.candidates.filter (fun c => c.position_id = c_str position_id)).map
        (fun c => c.id)) := by
    unfold get_candidates_for_position
    rw [List.map_map]
    refine ((List.perm_insertionSort rank_before _).map _).trans ?_
    rw [ranking_groups_eq db _ hv.candidates_pk, List.map_map]
    refine List.Perm.of_eq (List.map_congr_left ?_)
    intro c hc
    have hc' := (List.mem_filter.1 hc).1
    exact (to_ranking_candidate_row db c (hv.candidates_text c hc').1).1
  refine ⟨hperm, hperm.nodup_iff.2 (hv.candidates_pk.sublist ((List.filter_sublist _).map _)), ?_⟩
  intro e he
  unfold get_candidates_for_position at he
  rw [List.mem_map] at he
  obtain ⟨r, hr, rfl⟩ := he
  rw [List.mem_insertionSort] at hr
  obtain ⟨c, hc, _, rfl, hi, _, _⟩ := ranking_groups_row db hv _ _ hr
  exact (to_ranking_candidate_row db c (hv.candidates_text c hc).1).2

/-- C3, at the scenario extended with the unscored candidate Aaron. -/
theorem ranking_entries_witness :
    scenario_aaron.2.valid ∧
    ((get_candidates_for_position scenario_aaron.2 scenario_position.1).map
      (fun e => e.id)).Perm
      ((scenario_aaron.2.candidates.filter
        (fun c => c.position_id = c_str scenario_position.1)).map (fun c => c.id)) ∧
    (get_candidates_for_position scenario_aaron.2 scenario_position.1).length = 3 :=
  ⟨scenario_aaron_valid,
   (ranking_entries scenario_aaron.2 scenario_aaron_valid scenario_position.1).1,
   by decide!⟩

/-! ## `get_score_stats` -/

/-- C4: for every store state and candidate id, `get_score_stats` returns as `num_scores`
the number of scores of the candidate; when that number is positive the two averages are
the arithmetic means of the candidate's `hand_gestures` and `stayed_awake` values and
`avg_total` is half the sum of the two averages; when it is zero the three averages are 0.
The candidate is the one the bound C string `candidate_id.c_str()` names. -/
theorem score_stats_spec (db : Database) (candidate_id : String) :
    (get_score_stats db candidate_id).num_scores =
      (scores_of db (c_str candidate_id)).length ∧
    (0 < (get_score_stats db candidate_id).num_scores →
      (get_score_stats db candidate_id).avg_hand_gestures =
        ((((scores_of db (c_str candidate_id)).map (fun s => s.hand_gestures)).sum : Int) : ℚ) /
          ((scores_of db (c_str candidate_id)).length : ℚ) ∧
      (get_score_stats db candidate_id).avg_stayed_awake =
        ((((scores_of db (c_str candidate_id)).map (fun s => s.stayed_awake)).sum : Int) : ℚ) /
          ((scores_of db (c_str candidate_id)).length : ℚ) ∧
      (get_score_stats db candidate_id).avg_total =
        ((get_score_stats db candidate_id).avg_hand_gestures +
          (get_score_stats db candidate_id).avg_stayed_awake) / 2) ∧
    ((get_score_stats db candidate_id).num_scores = 0 →
      (get_score_stats db candidate_id).avg_hand_gestures = 0 ∧
      (get_score_stats db candidate_id).avg_stayed_awake = 0 ∧
      (get_score_stats db candidate_id).avg_total = 0) := by
  unfold get_score_stats
  have e : db.scores.filter (fun s => s.candidate_id = c_str candidate_id) =
      scores_of db (c_str candidate_id) := rfl
  simp only [e]
  generalize scores_of db (c_str candidate_id) = l
  cases l with
  | nil => simp
  | cons s t =>
    have hpos : ((List.length (s :: t) : ℕ) : Int) > 0 := by
      simp only [List.length_cons]; omega
    rw [if_pos hpos]
    refine ⟨rfl, fun _ => ⟨?_, ?_, ?_⟩, fun h => ?_⟩
    · simp [sql_avg, column_double]
    · simp [sql_avg, column_double]
    · simp [sql_avg, sql_half_sum, column_double]
    · simp only at h
      omega

/-! ## Every write keeps the store valid -/

theorem nodup_map_append_singleton {α β : Type} (f : α → β) (l : List α) (a : α)
    (h : (l.map f).Nodup) (ha : ∀ x ∈ l, f x ≠ f a) : ((l ++ [a]).map f).Nodup := by
  rw [List.map_append, List.map_cons, List.map_nil]
  refine List.Nodup.append h (List.nodup_singleton _) ?_
  intro b hb hb'
  rw [List.mem_singleton] at hb'
  subst hb'
  obtain ⟨x, hx, hxe⟩ := List.mem_map.1 hb
  exact ha x hx hxe

theorem mem_map_append_left {α β : Type} (f : α → β) (l : List α) (a : α) {b : β}
    (h : b ∈ l.map f) : b ∈ (l ++ [a]).map f := by
  rw [List.map_append]; exact List.mem_append_left _ h

theorem hex_ne_nul (i : Nat) : hex i ≠ '\x00' := by
  unfold hex
  by_cases h : i < 16
  · interval_cases i <;> decide
  · have : "0123456789abcdef".data.getD i '0' = '0' := by
      rw [List.getD_eq_default]
      simp only [not_lt] at h
      exact h
    rw [this]; decide

theorem generate_uuid_loop_nul (rnd : Nat → Fin 16) (t : List Char) (k : Nat)
    (h : '\x00' ∉ t) : '\x00' ∉ generate_uuid_loop rnd t k := by
  induction t generalizing k with
  | nil => simp [generate_uuid_loop]
  | cons c cs ih =>
    have hc : '\x00' ≠ c := fun e => h (List.mem_cons.2 (Or.inl e))
    have hcs : '\x00' ∉ cs := fun e => h (List.mem_cons.2 (Or.inr e))
    unfold generate_uuid_loop
    split
    · simp only [List.mem_cons, not_or]
      exact ⟨fun e => hex_ne_nul _ e.symm, ih _ hcs⟩
    · split
      · simp only [List.mem_cons, not_or]
        exact ⟨fun e => hex_ne_nul _ e.symm, ih _ hcs⟩
      · simp only [List.mem_cons, not_or]
        exact ⟨hc, ih _ hcs⟩

theorem nulFree_generate_uuid (rnd : Nat → Fin 16) : NulFree (generate_uuid rnd) :=
  generate_uuid_loop_nul rnd _ 0 (by decide)

theorem c_str_generate_uuid (rnd : Nat → Fin 16) :
    c_str (generate_uuid rnd) = generate_uuid rnd :=
  c_str_of_nulFree (nulFree_generate_uuid rnd)

theorem valid_empty : Database.empty.valid :=
  ⟨by decide, by decide, by decide, by decide, by decide, by decide, by decide, by decide,
   by decide, by decide, by decide, by decide, by decide, by decide, by decide⟩

theorem valid_ensure_user (db : Database) (hv : db.valid) (now : Nat)
    (id email name : String) : (ensure_user db now id email name).valid := by
  unfold ensure_user
  dsimp only
  split
  · exact hv
  · rename_i hany
    simp only [List.any_eq_true, Bool.or_eq_true, decide_eq_true_eq, not_exists, not_and,
      not_or] at hany
    exact
      { hv with
        users_pk := nodup_map_append_singleton _ _ _ hv.users_pk (fun x hx => (hany x hx).1)
        users_email_unique :=
          nodup_map_append_singleton _ _ _ hv.users_email_unique (fun x hx => (hany x hx).2)
        positions_fk := fun p hp => mem_map_append_left _ _ _ (hv.positions_fk p hp)
        scores_fk_interviewer := fun s hs =>
          mem_map_append_left _ _ _ (hv.scores_fk_interviewer s hs)
        users_text := by
          intro u hu
          rcases List.mem_append.1 hu with h | h
          · exact hv.users_text u h
          · rw [List.mem_singleton] at h
            subst h
            exact ⟨nulFree_c_str _, nulFree_c_str _, nulFree_c_str _⟩ }

theorem valid_create_position (db : Database) (hv : db.valid) (now : Nat)
    (rnd : Nat → Fin 16) (title user_id : String) :
    (create_position db now rnd title user_id).2.valid := by
  unfold create_position
  dsimp only
  split
  · exact hv
  · rename_i hpk
    split
    · exact hv
    · rename_i hfk
      simp only [List.any_eq_true, decide_eq_true_eq, not_exists, not_and] at hpk
      obtain ⟨u, hu, hue⟩ := List.any_eq_true.1 (not_not.1 hfk)
      replace hue := of_decide_eq_true hue
      exact
        { hv with
          positions_pk := nodup_map_append_singleton _ _ _ hv.positions_pk hpk
          positions_fk := by
            intro p hp
            rcases List.mem_append.1 hp with h | h
            · exact hv.positions_fk p h
            · rw [List.mem_singleton] at h
              subst h
              exact List.mem_map.2 ⟨u, hu, hue⟩
          candidates_fk := fun c hc => mem_map_append_left _ _ _ (hv.candidates_fk c hc)
          positions_text := by
            intro p hp
            rcases List.mem_append.1 hp with h | h
            · exact hv.positions_text p h
            · rw [List.mem_singleton] at h
              subst h
              exact ⟨nulFree_c_str _, nulFree_c_str _, nulFree_c_str _⟩ }

theorem valid_create_candidate (db : Database) (hv : db.valid) (now : Nat)
    (rnd : Nat → Fin 16) (position_id name : String) :
    (create_candidate db now rnd position_id name).2.valid := by
  unfold create_candidate
  dsimp only
  split
  · exact hv
  · rename_i hpk
    split
    · exact hv
    · rename_i hfk
      simp only [List.any_eq_true, decide_eq_true_eq, not_exists, not_and] at hpk
      obtain ⟨p, hp, hpe⟩ := List.any_eq_true.1 (not_not.1 hfk)
      replace hpe := of_decide_eq_true hpe
      exact
        { hv with
          candidates_pk := nodup_map_append_singleton _ _ _ hv.candidates_pk hpk
          candidates_fk := by
            intro c hc
            rcases List.mem_append.1 hc with h | h
            · exact hv.candidates_fk c h
            · rw [List.mem_singleton] at h
              subst h
              exact List.mem_map.2 ⟨p, hp, hpe⟩
          scores_fk_candidate := fun s hs =>
            mem_map_append_left _ _ _ (hv.scores_fk_candidate s hs)
          candidates_text := by
            intro c hc
            rcases List.mem_append.1 hc with h | h
            · exact hv.candidates_text c h
            · rw [List.mem_singleton] at h
              subst h
              exact ⟨nulFree_c_str _, nulFree_c_str _, nulFree_c_str _,
                fun f hf => by simp at hf⟩ }

theorem update_score_rows_map {α : Type} (f : ScoreRow → α)
    (hf : ∀ (s : ScoreRow) (h a : Int) (n : Nat),
      f { s with hand_gestures := h, stayed_awake := a, updated_at := n } = f s)
    (scores : List ScoreRow) (now : Nat) (cid uid : String) (h a : Int) :
    (update_score_rows scores now cid uid h a).map f = scores.map f := by
  unfold update_score_rows
  split
  · rw [List.map_map]
    refine List.map_congr_left ?_
    intro s _
    simp only [Function.comp]
    split
    · exact hf s h a now
    · rfl
  · rfl

theorem mem_update_score_rows {scores : List ScoreRow} {now : Nat} {cid uid : String}
    {h a : Int} {r : ScoreRow} (hr : r ∈ update_score_rows scores now cid uid h a) :
    ∃ s ∈ scores, r.id = s.id ∧ r.candidate_id = s.candidate_id ∧
      r.interviewer_id = s.interviewer_id ∧
      (r = s ∨ (between_1_and_5 h ∧ between_1_and_5 a ∧ s.candidate_id = cid ∧
        s.interviewer_id = uid ∧ r.hand_gestures = h ∧ r.stayed_awake = a)) := by
  unfold update_score_rows at hr
  split at hr
  · rename_i hb
    obtain ⟨s, hs, rfl⟩ := List.mem_map.1 hr
    refine ⟨s, hs, ?_⟩
    split
    · rename_i hm
      exact ⟨rfl, rfl, rfl, Or.inr ⟨hb.1, hb.2, hm.1, hm.2, rfl, rfl⟩⟩
    · exact ⟨rfl, rfl, rfl, Or.inl rfl⟩
  · exact ⟨r, hr, rfl, rfl, rfl, Or.inl rfl⟩

theorem valid_update_score_rows (db : Database) (hv : db.valid) (now : Nat)
    (cid uid : String) (h a : Int) :
    ({ db with scores := update_score_rows db.scores now cid uid h a } : Database).valid :=
  { hv with
    scores_pk := by
      show ((update_score_rows db.scores now cid uid h a).map (fun s => s.id)).Nodup
      rw [update_score_rows_map (fun s => s.id) (fun _ _ _ _ => rfl)]
      exact hv.scores_pk
    scores_unique := by
      show ((update_score_rows db.scores now cid uid h a).map
        (fun s => (s.candidate_id, s.interviewer_id))).Nodup
      rw [update_score_rows_map (fun s => (s.candidate_id, s.interviewer_id))
        (fun _ _ _ _ => rfl)]
      exact hv.scores_unique
    scores_check := by
      intro r hr
      obtain ⟨s, hs, _, _, _, h1 | h2⟩ := mem_update_score_rows hr
      · rw [h1]; exact hv.scores_check s hs
      · obtain ⟨hh, ha, _, _, e1, e2⟩ := h2
        rw [e1, e2]; exact ⟨hh, ha⟩
    scores_fk_candidate := by
      intro r hr
      obtain ⟨s, hs, _, e, _, _⟩ := mem_update_score_rows hr
      show r.candidate_id ∈ _
      rw [e]; exact hv.scores_fk_candidate s hs
    scores_fk_interviewer := by
      intro r hr
      obtain ⟨s, hs, _, _, e, _⟩ := mem_update_score_rows hr
      show r.interviewer_id ∈ _
      rw [e]; exact hv.scores_fk_interviewer s hs
    scores_text := by
      intro r hr
      obtain ⟨s, hs, e1, e2, e3, _⟩ := mem_update_score_rows hr
      rw [e1, e2, e3]; exact hv.scores_text s hs }

theorem valid_insert_score_row (db : Database) (hv : db.valid) (row : ScoreRow)
    (ht : NulFree row.id ∧ NulFree row.candidate_id ∧ NulFree row.interviewer_id) :
    (insert_score_row db row).valid := by
  unfold insert_score_row
  split
  · exact hv
  · rename_i hpk
    split
    · exact hv
    · rename_i huq
      split
      · exact hv
      · rename_i hck
        split
        · exact hv
        · rename_i hfc
          split
          · exact hv
          · rename_i hfu
            simp only [List.any_eq_true, decide_eq_true_eq, not_exists, not_and,
              Bool.and_eq_true] at hpk huq
            obtain ⟨c, hc, hce⟩ := List.any_eq_true.1 (not_not.1 hfc)
            obtain ⟨u, hu, hue⟩ := List.any_eq_true.1 (not_not.1 hfu)
            replace hce := of_decide_eq_true hce
            replace hue := of_decide_eq_true hue
            replace hck := not_not.1 hck
            exact
              { hv with
                scores_pk := nodup_map_append_singleton _ _ _ hv.scores_pk hpk
                scores_unique := nodup_map_append_singleton _ _ _ hv.scores_unique
                  (fun x hx e => huq x hx (Prod.mk.inj e).1 (Prod.mk.inj e).2)
                scores_check := by
                  intro s hs
                  rcases List.mem_append.1 hs with h | h
                  · exact hv.scores_check s h
                  · rw [List.mem_singleton] at h
                    subst h; exact hck
                scores_fk_candidate := by
                  intro s hs
                  rcases List.mem_append.1 hs with h | h
                  · exact hv.scores_fk_candidate s h
                  · rw [List.mem_singleton] at h
                    subst h; exact List.mem_map.2 ⟨c, hc, hce⟩
                scores_fk_interviewer := by
                  intro s hs
                  rcases List.mem_append.1 hs with h | h
                  · exact hv.scores_fk_interviewer s h
                  · rw [List.mem_singleton] at h
                    subst h; exact List.mem_map.2 ⟨u, hu, hue⟩
                scores_text := by
                  intro s hs
                  rcases List.mem_append.1 hs with h | h
                  · exact hv.scores_text s h
                  · rw [List.mem_singleton] at h
                    subst h; exact ht }

theorem valid_upsert_score (db : Database) (hv : db.valid) (now : Nat) (rnd : Nat → Fin 16)
    (candidate_id user_id : String) (h a : Int) :
    (upsert_score db now rnd candidate_id user_id h a).valid := by
  unfold upsert_score
  dsimp only
  split
  · exact valid_update_score_rows db hv now _ _ h a
  · exact valid_insert_score_row db hv _ ⟨nulFree_c_str _, nulFree_c_str _, nulFree_c_str _⟩

theorem valid_update_feedback (db : Database) (hv : db.valid)
    (candidate_id feedback : String) : (update_feedback db candidate_id feedback).valid := by
  have hmap : ∀ {α : Type} (f : CandidateRow → α),
      (∀ (c : CandidateRow) (t : Option String), f { c with student_feedback := t } = f c) →
      (update_feedback db candidate_id feedback).candidates.map f = db.candidates.map f := by
    intro α f hf
    unfold update_feedback
    simp only [List.map_map]
    refine List.map_congr_left ?_
    intro c _
    simp only [Function.comp]
    split
    · exact hf c _
    · rfl
  exact
    { hv with
      candidates_pk := by rw [hmap (fun c => c.id) (fun _ _ => rfl)]; exact hv.candidates_pk
      candidates_fk := by
        intro c hc
        obtain ⟨c0, hc0, rfl⟩ := List.mem_map.1 hc
        have := hv.candidates_fk c0 hc0
        split <;> exact this
      scores_fk_candidate := by
        intro s hs
        rw [hmap (fun c => c.id) (fun _ _ => rfl)]; exact hv.scores_fk_candidate s hs
      candidates_text := by
        intro c hc
        obtain ⟨c0, hc0, rfl⟩ := List.mem_map.1 hc
        have := hv.candidates_text c0 hc0
        split
        · refine ⟨this.1, this.2.1, this.2.2.1, ?_⟩
          intro f hf
          simp only [Option.some.injEq] at hf
          rw [← hf]; exact nulFree_c_str _
        · exact this }

/-! ## Invariants of the reachable states -/

theorem reachable_valid {db : Database} (h : Reachable db) : db.valid := by
  induction h with
  | init => exact valid_empty
  | ensure_user db now id email name _ ih => exact valid_ensure_user db ih now id email name
  | create_position db now rnd title user_id _ ih =>
    exact valid_create_position db ih now rnd title user_id
  | create_candidate db now rnd position_id name _ ih =>
    exact valid_create_candidate db ih now rnd position_id name
  | upsert_score db now rnd c u h a _ ih => exact valid_upsert_score db ih now rnd c u h a
  | update_feedback db c f _ ih => exact valid_update_feedback db ih c f

theorem length_filter_le_one_of_nodup {α β : Type} [DecidableEq β] (f : α → β) (k : β)
    (l : List α) (h : (l.map f).Nodup) : (l.filter (fun x => f x = k)).length ≤ 1 := by
  induction l with
  | nil => simp
  | cons a t ih =>
    rw [List.map_cons, List.nodup_cons] at h
    by_cases hk : f a = k
    · have ht : t.filter (fun x => decide (f x = k)) = [] := by
        rw [List.filter_eq_nil_iff]
        intro x hx hxk
        exact h.1 (List.mem_map.2 ⟨x, hx, (of_decide_eq_true hxk).trans hk.symm⟩)
      simp [List.filter_cons, hk, ht]
    · simpa [List.filter_cons, hk] using ih h.2

theorem reachable_scenario : Reachable scenario :=
  Reachable.upsert_score _ _ _ _ _ _ _ (Reachable.upsert_score _ _ _ _ _ _ _
    (Reachable.upsert_score _ _ _ _ _ _ _ (Reachable.create_candidate _ _ _ _ _
      (Reachable.create_candidate _ _ _ _ _ (Reachable.create_position _ _ _ _ _
        (Reachable.ensure_user _ _ _ _ _ (Reachable.ensure_user _ _ _ _ _
          (Reachable.ensure_user _ _ _ _ _ Reachable.init))))))))

/-- C6: in every store state reachable from the empty store by `ensure_user`,
`create_position`, `create_candidate`, `upsert_score` (with arbitrary integers) and
`update_feedback`, every persisted score has `hand_gestures` and `stayed_awake` in 1..5,
and each (candidate, interviewer) pair has at most one score. -/
theorem reachable_scores_invariant (db : Database) (h : Reachable db) :
    (∀ s ∈ db.scores, (1 ≤ s.hand_gestures ∧ s.hand_gestures ≤ 5) ∧
      (1 ≤ s.stayed_awake ∧ s.stayed_awake ≤ 5)) ∧
    ∀ candidate_id interviewer_id : String,
      (db.scores.filter (fun s =>
        s.candidate_id = candidate_id ∧ s.interviewer_id = interviewer_id)).length ≤ 1 := by
  have hv := reachable_valid h
  refine ⟨hv.scores_check, ?_⟩
  intro c u
  have := length_filter_le_one_of_nodup (fun s : ScoreRow => (s.candidate_id, s.interviewer_id))
    (c, u) db.scores hv.scores_unique
  simpa only [Prod.mk.injEq] using this

/-- C6, at the scenario followed by a resubmission and by an out-of-range submission:
the three scores stay three, all within 1..5. -/
theorem reachable_scores_invariant_witness :
    Reachable scenario_resubmitted ∧
    ((∀ s ∈ scenario_resubmitted.scores, (1 ≤ s.hand_gestures ∧ s.hand_gestures ≤ 5) ∧
      (1 ≤ s.stayed_awake ∧ s.stayed_awake ≤ 5)) ∧
    ∀ candidate_id interviewer_id : String,
      (scenario_resubmitted.scores.filter (fun s =>
        s.candidate_id = candidate_id ∧ s.interviewer_id = interviewer_id)).length ≤ 1) ∧
    scenario_resubmitted.scores.map (fun s => (s.interviewer_id, s.hand_gestures, s.stayed_awake))
      = [("B", 4, 5), ("B", 2, 2), ("C", 3, 3)] :=
  ⟨Reachable.upsert_score _ _ _ _ _ _ _ (Reachable.upsert_score _ _ _ _ _ _ _
      reachable_scenario),
   reachable_scores_invariant scenario_resubmitted
    (Reachable.upsert_score _ _ _ _ _ _ _ (Reachable.upsert_score _ _ _ _ _ _ _
      reachable_scenario)),
   by decide⟩

/-! ## `upsert_score` followed by `get_my_score` -/

theorem nulFree_of_mem_candidates {db : Database} (hv : db.valid) {c : String}
    (hc : c ∈ db.candidates.map (fun x => x.id)) : NulFree c := by
  obtain ⟨x, hx, rfl⟩ := List.mem_map.1 hc
  exact (hv.candidates_text x hx).1

theorem nulFree_of_mem_users {db : Database} (hv : db.valid) {u : String}
    (hu : u ∈ db.users.map (fun x => x.id)) : NulFree u := by
  obtain ⟨x, hx, rfl⟩ := List.mem_map.1 hu
  exact (hv.users_text x hx).1

theorem get_my_score_eq (db : Database) (c u : String) :
    get_my_score db c u =
      match db.scores.filter
          (fun s => s.candidate_id = c_str c ∧ s.interviewer_id = c_str u) with
      | [] => { exists_ := false, hand_gestures := 0, stayed_awake := 0 }
      | s :: _ =>
        { exists_ := true, hand_gestures := s.hand_gestures, stayed_awake := s.stayed_awake } := by
  unfold get_my_score
  have : (fun s : ScoreRow => decide (s.candidate_id = c_str c) &&
        decide (s.interviewer_id = c_str u)) =
      (fun s : ScoreRow => decide (s.candidate_id = c_str c ∧ s.interviewer_id = c_str u)) := by
    funext s; simp
  rw [this]

theorem filter_append_singleton {α : Type} {l : List α} {p : α → Bool} {a : α}
    (hl : l.filter p = []) (ha : p a = true) : (l ++ [a]).filter p = [a] := by
  rw [List.filter_append, hl, List.nil_append, List.filter_cons, if_pos ha, List.filter_nil]

/-- One `upsert_score` for an existing candidate and interviewer with values in 1..5: the
pair then has exactly one row, carrying the submitted values, provided the id generated for
a new row is not in use. -/
theorem upsert_score_single (db : Database) (hv : db.valid) (now : Nat) (rnd : Nat → Fin 16)
    (c u : String) (h a : Int)
    (hc : c ∈ db.candidates.map (fun x => x.id)) (hu : u ∈ db.users.map (fun x => x.id))
    (hh : between_1_and_5 h) (ha : between_1_and_5 a)
    (hfresh : (get_my_score db c u).exists_ = false →
      generate_uuid rnd ∉ db.scores.map (fun s => s.id)) :
    ((upsert_score db now rnd c u h a).scores.filter
      (fun s => s.candidate_id = c ∧ s.interviewer_id = u)).length = 1 ∧
    get_my_score (upsert_score db now rnd c u h a) c u =
      { exists_ := true, hand_gestures := h, stayed_awake := a } := by
  have hcn := c_str_of_nulFree (nulFree_of_mem_candidates hv hc)
  have hun := c_str_of_nulFree (nulFree_of_mem_users hv hu)
  have hle := length_filter_le_one_of_nodup
    (fun s : ScoreRow => (s.candidate_id, s.interviewer_id)) (c, u) db.scores hv.scores_unique
  simp only [Prod.mk.injEq] at hle
  rw [get_my_score_eq, hcn, hun]
  rw [get_my_score_eq, hcn, hun] at hfresh
  unfold upsert_score
  dsimp only
  rw [get_my_score_eq, hcn, hun]
  cases hL : db.scores.filter (fun s => s.candidate_id = c ∧ s.interviewer_id = u) with
  | nil =>
    simp only [Bool.false_eq_true, if_false]
    rw [hL] at hfresh
    have hf := hfresh rfl
    rw [c_str_generate_uuid]
    unfold insert_score_row
    have g1 : ¬ (db.scores.any (fun s => s.id = generate_uuid rnd)) = true := by
      simp only [List.any_eq_true, decide_eq_true_eq, not_exists, not_and]
      intro x hx e
      exact hf (List.mem_map.2 ⟨x, hx, e⟩)
    have g2 : ¬ (db.scores.any (fun s => s.candidate_id = c && s.interviewer_id = u)) = true := by
      simp only [List.any_eq_true, Bool.and_eq_true, decide_eq_true_eq, not_exists, not_and]
      intro x hx e1 e2
      have : x ∈ db.scores.filter (fun s => s.candidate_id = c ∧ s.interviewer_id = u) :=
        List.mem_filter.2 ⟨hx, decide_eq_true ⟨e1, e2⟩⟩
      rw [hL] at this
      simp at this
    have g4 : (db.candidates.any (fun x => x.id = c)) = true := by
      obtain ⟨x, hx, e⟩ := List.mem_map.1 hc
      exact List.any_eq_true.2 ⟨x, hx, decide_eq_true e⟩
    have g5 : (db.users.any (fun x => x.id = u)) = true := by
      obtain ⟨x, hx, e⟩ := List.mem_map.1 hu
      exact List.any_eq_true.2 ⟨x, hx, decide_eq_true e⟩
    rw [if_neg g1, if_neg g2, if_neg (not_not.2 ⟨hh, ha⟩), if_neg (not_not.2 g4),
      if_neg (not_not.2 g5)]
    simp only
    rw [filter_append_singleton hL (decide_eq_true ⟨rfl, rfl⟩)]
    exact ⟨rfl, rfl⟩
  | cons s0 t =>
    rw [if_pos rfl]
    have ht : t = [] := by
      rw [hL] at hle
      simp only [List.length_cons] at hle
      exact List.length_eq_zero.1 (by omega)
    subst ht
    have hs0 : s0.candidate_id = c ∧ s0.interviewer_id = u := by
      have : s0 ∈ db.scores.filter (fun s => s.candidate_id = c ∧ s.interviewer_id = u) := by
        rw [hL]; simp
      exact of_decide_eq_true (List.mem_filter.1 this).2
    unfold update_score_rows
    rw [if_pos ⟨hh, ha⟩]
    simp only
    rw [List.filter_map]
    have hcomp : ((fun s : ScoreRow => decide (s.candidate_id = c ∧ s.interviewer_id = u)) ∘
        fun s : ScoreRow => if s.candidate_id = c ∧ s.interviewer_id = u then
          { s with hand_gestures := h, stayed_awake := a, updated_at := now } else s) =
        fun s : ScoreRow => decide (s.candidate_id = c ∧ s.interviewer_id = u) := by
      funext s
      simp only [Function.comp]
      split <;> rfl
    rw [hcomp, hL, List.map_cons, List.map_nil, if_pos hs0]
    exact ⟨rfl, rfl⟩

theorem upsert_score_candidates (db : Database) (now : Nat) (rnd : Nat → Fin 16)
    (c u : String) (h a : Int) :
    (upsert_score db now rnd c u h a).candidates = db.candidates ∧
    (upsert_score db now rnd c u h a).users = db.users ∧
    (upsert_score db now rnd c u h a).positions = db.positions := by
  unfold upsert_score
  dsimp only
  split
  · exact ⟨rfl, rfl, rfl⟩
  · unfold insert_score_row
    repeat' split
    all_goals exact ⟨rfl, rfl, rfl⟩

/-- C5 as stated fails: in the scenario interviewer C has no score for Jones, both exist and
the values are in range, yet when the generated identifier repeats the id of a persisted
score the INSERT is refused and `get_my_score` still reports no score. -/
theorem upsert_score_id_collision :
    ¬ ∀ (db : Database) (now : Nat) (rnd : Nat → Fin 16) (c u : String) (h a : Int),
      db.valid → c ∈ db.candidates.map (fun x => x.id) → u ∈ db.users.map (fun x => x.id) →
      between_1_and_5 h → between_1_and_5 a →
      ((upsert_score db now rnd c u h a).scores.filter
        (fun s => s.candidate_id = c ∧ s.interviewer_id = u)).length = 1 ∧
      get_my_score (upsert_score db now rnd c u h a) c u =
        { exists_ := true, hand_gestures := h, stayed_awake := a } := by
  intro H
  have h1 := (H scenario 7 (fun _ => 3) scenario_jones.1 "C" 3 3 scenario_valid
    (by decide) (by decide) (by decide) (by decide)).2
  revert h1
  decide

/-- C5, amended: in every store state in which candidate `c` and interviewer `u` exist, for
values in 1..5, after `upsert_score c u h1 s1` the store holds exactly one score row for
the pair and `get_my_score` reports it with `(h1, s1)`, and after a further
`upsert_score c u h2 s2` it holds exactly one row for the pair, reported with `(h2, s2)`;
this whether or not the pair had a score before, provided that when it had none the
identifier generated for the new row is not the id of a persisted score. -/
theorem upsert_score_overwrites (db : Database) (hv : db.valid) (c u : String)
    (hc : c ∈ db.candidates.map (fun x => x.id)) (hu : u ∈ db.users.map (fun x => x.id))
    (h1 s1 h2 s2 : Int) (hh1 : between_1_and_5 h1) (hs1 : between_1_and_5 s1)
    (hh2 : between_1_and_5 h2) (hs2 : between_1_and_5 s2)
    (now1 now2 : Nat) (rnd1 rnd2 : Nat → Fin 16)
    (hfresh : (get_my_score db c u).exists_ = false →
      generate_uuid rnd1 ∉ db.scores.map (fun s => s.id)) :
    (((upsert_score db now1 rnd1 c u h1 s1).scores.filter
        (fun s => s.candidate_id = c ∧ s.interviewer_id = u)).length = 1 ∧
      get_my_score (upsert_score db now1 rnd1 c u h1 s1) c u =
        { exists_ := true, hand_gestures := h1, stayed_awake := s1 }) ∧
    (((upsert_score (upsert_score db now1 rnd1 c u h1 s1) now2 rnd2 c u h2 s2).scores.filter
        (fun s => s.candidate_id = c ∧ s.interviewer_id = u)).length = 1 ∧
      get_my_score (upsert_score (upsert_score db now1 rnd1 c u h1 s1) now2 rnd2 c u h2 s2)
        c u = { exists_ := true, hand_gestures := h2, stayed_awake := s2 }) := by
  have first := upsert_score_single db hv now1 rnd1 c u h1 s1 hc hu hh1 hs1 hfresh
  refine ⟨first, ?_⟩
  have hv1 := valid_upsert_score db hv now1 rnd1 c u h1 s1
  have hsame := upsert_score_candidates db now1 rnd1 c u h1 s1
  refine upsert_score_single _ hv1 now2 rnd2 c u h2 s2 (by rw [hsame.1]; exact hc)
    (by rw [hsame.2.1]; exact hu) hh2 hs2 ?_
  intro hno
  rw [first.2] at hno
  exact Bool.noConfusion hno

/-- C5 amended, at the scenario: interviewer C first scores Jones (1,5), then (5,1). -/
theorem upsert_score_overwrites_witness :
    scenario.valid ∧
    get_my_score (upsert_score (upsert_score scenario 7 (fun _ => 6) scenario_jones.1 "C" 1 5)
      8 (fun _ => 7) scenario_jones.1 "C" 5 1) scenario_jones.1 "C" =
        { exists_ := true, hand_gestures := 5, stayed_awake := 1 } :=
  ⟨scenario_valid,
   (upsert_score_overwrites scenario scenario_valid scenario_jones.1 "C" (by decide) (by decide)
      1 5 5 1 (by decide) (by decide) (by decide) (by decide) 7 8 (fun _ => 6) (fun _ => 7)
      (fun _ => by decide)).2.2⟩

/-! ## Score submissions through the handler -/

theorem ensure_user_fields (db : Database) (now : Nat) (id email name : String) :
    (ensure_user db now id email name).positions = db.positions ∧
    (ensure_user db now id email name).candidates = db.candidates ∧
    (ensure_user db now id email name).scores = db.scores := by
  unfold ensure_user
  dsimp only
  split <;> exact ⟨rfl, rfl, rfl⟩

theorem ensure_user_of_mem (db : Database) (now : Nat) (id email name : String)
    (h : c_str id ∈ db.users.map (fun u => u.id)) : ensure_user db now id email name = db := by
  unfold ensure_user
  dsimp only
  rw [if_pos]
  obtain ⟨u, hu, e⟩ := List.mem_map.1 h
  exact List.any_eq_true.2 ⟨u, hu, by simp [e]⟩

theorem get_candidate_congr {db1 db2 : Database} (hc : db1.candidates = db2.candidates)
    (hp : db1.positions = db2.positions) (id : String) :
    get_candidate db1 id = get_candidate db2 id := by
  unfold get_candidate candidate_join_position
  rw [hc, hp]

theorem get_score_stats_congr {db1 db2 : Database} (hs : db1.scores = db2.scores)
    (id : String) : get_score_stats db1 id = get_score_stats db2 id := by
  unfold get_score_stats
  rw [hs]

theorem get_my_score_congr {db1 db2 : Database} (hs : db1.scores = db2.scores)
    (c u : String) : get_my_score db1 c u = get_my_score db2 c u := by
  unfold get_my_score
  rw [hs]

/-- C7 as stated fails on two counts.  A submission (7,3) by an interviewer the store has
not seen is answered with the range message, but the `users` relation has gained a row.
A submission whose `hand_gestures` is 7 and whose `stayed_awake` is empty is not answered
with a message at all: `std::stoi` throws and the exception leaves the handler. -/
theorem out_of_range_submission_counterexample :
    ((post_candidate scenario 9 (fun _ => 9) newcomer_request).2.flash =
        some "Scores must be between 1 and 5." ∧
      (post_candidate scenario 9 (fun _ => 9) newcomer_request).1.users =
        scenario.users ++
          [{ id := "D", email := "d@uni.edu", display_name := "Dee", created_at := 9 }]) ∧
    stoi "7" = .ok 7 ∧
    post_candidate scenario 9 (fun _ => 9) (score_request "7" "") =
      (scenario, .uncaught .invalid_argument) :=
  ⟨⟨by decide, by decide⟩, rfl, by decide⟩

/-- C7, amended: for every store state and every score submission for an existing
candidate whose two fields both parse to an `int`, at least one of them outside 1..5, the
submission is answered with the message "Scores must be between 1 and 5."; the scores,
candidates and positions are the same after the submission as before it, and the users are
those before it with the requesting user ensured (the whole store is the same when that
user was already known). -/
theorem out_of_range_submission (db : Database) (now : Nat) (rnd : Nat → Fin 16)
    (req : Request) (candidate : CandidateDetail) (h s : Int)
    (hcand : get_candidate db req.path_id = some candidate)
    (haction : param req.params "action" = "score")
    (hh : stoi (param req.params "hand_gestures") = .ok h)
    (hs : stoi (param req.params "stayed_awake") = .ok s)
    (hout : ¬ (1 ≤ h ∧ h ≤ 5) ∨ ¬ (1 ≤ s ∧ s ≤ 5)) :
    (post_candidate db now rnd req).2 =
      .candidate_detail_page (get_current_user req db now).1.name
        "Scores must be between 1 and 5." candidate
        (get_score_stats db req.path_id)
        (get_my_score db req.path_id (get_current_user req db now).1.id) ∧
    (post_candidate db now rnd req).1.scores = db.scores ∧
    (post_candidate db now rnd req).1.candidates = db.candidates ∧
    (post_candidate db now rnd req).1.positions = db.positions ∧
    (post_candidate db now rnd req).1 =
      ensure_user db now (get_current_user req db now).1.id
        (get_current_user req db now).1.email (get_current_user req db now).1.name ∧
    (c_str (get_current_user req db now).1.id ∈ db.users.map (fun u => u.id) →
      (post_candidate db now rnd req).1 = db) := by
  have hf := ensure_user_fields db now (get_current_user req db now).1.id
    (get_current_user req db now).1.email (get_current_user req db now).1.name
  have hdb1 : (get_current_user req db now).2 =
      ensure_user db now (get_current_user req db now).1.id
        (get_current_user req db now).1.email (get_current_user req db now).1.name := rfl
  have hc1 : get_candidate (get_current_user req db now).2 req.path_id = some candidate := by
    rw [hdb1, get_candidate_congr hf.2.1 hf.1, hcand]
  have hrange : ¬ (h ≥ 1 ∧ h ≤ 5 ∧ s ≥ 1 ∧ s ≤ 5) := by
    rintro ⟨a, b, c, d⟩
    rcases hout with ho | ho
    · exact ho ⟨a, b⟩
    · exact ho ⟨c, d⟩
  have hpost : post_candidate db now rnd req =
      ((get_current_user req db now).2,
        refresh (get_current_user req db now).2 (get_current_user req db now).1 req.path_id
          "Scores must be between 1 and 5." candidate) := by
    unfold post_candidate
    simp only [hc1, haction, hh, hs, if_true, if_neg hrange]
  rw [hpost]
  refine ⟨?_, ?_, ?_, ?_, hdb1, ?_⟩
  · simp only [refresh, hc1, Option.getD_some]
    rw [hdb1, get_score_stats_congr hf.2.2, get_my_score_congr hf.2.2]
  · simp only [hdb1]; exact hf.2.2
  · simp only [hdb1]; exact hf.2.1
  · simp only [hdb1]; exact hf.1
  · intro hmem
    simp only [hdb1]
    exact ensure_user_of_mem db now _ _ _ hmem

/-- C7 amended, at the scenario: interviewer B submits (7,3) for Smith. -/
theorem out_of_range_submission_witness :
    get_candidate scenario (score_request "7" "3").path_id =
      some { id := scenario_smith.1, name := "Smith", position_id := scenario_position.1,
             position_title := "Chemistry Lecturer", student_feedback := "" } ∧
    (post_candidate scenario 9 (fun _ => 9) (score_request "7" "3")).1 = scenario :=
  ⟨by decide,
   (out_of_range_submission scenario 9 (fun _ => 9) (score_request "7" "3")
      { id := scenario_smith.1, name := "Smith", position_id := scenario_position.1,
        position_title := "Chemistry Lecturer", student_feedback := "" } 7 3
      (by decide) (by decide) rfl rfl (Or.inl (by decide))).2.2.2.2.2 (by decide)⟩

/-- A score submission for an existing candidate whose `hand_gestures` field `std::stoi`
rejects, or whose `stayed_awake` field it rejects after accepting the first, ends by the
exception, the store being the one `get_current_user` left. -/
theorem post_candidate_stoi_error (db : Database) (now : Nat) (rnd : Nat → Fin 16)
    (req : Request) (candidate : CandidateDetail) (e : StoiError)
    (hcand : get_candidate (get_current_user req db now).2 req.path_id = some candidate)
    (haction : param req.params "action" = "score")
    (herr : stoi (param req.params "hand_gestures") = .error e ∨
      ∃ h, stoi (param req.params "hand_gestures") = .ok h ∧
        stoi (param req.params "stayed_awake") = .error e) :
    post_candidate db now rnd req = ((get_current_user req db now).2, .uncaught e) := by
  unfold post_candidate
  rcases herr with h1 | ⟨h, h1, h2⟩
  · simp only [hcand, haction, h1, if_true]
  · simp only [hcand, haction, h1, h2, if_true]

/-- C8 fails on the code: a score submission for an existing candidate whose score fields
are missing, empty or not numeric is not answered with a message.  `std::stoi` throws
`invalid_argument`, nothing in the handler catches it, and the handler ends by that
exception. -/
theorem unparsable_score_uncaught :
    post_candidate scenario 9 (fun _ => 9) fieldless_request =
      (scenario, .uncaught .invalid_argument) ∧
    post_candidate scenario 9 (fun _ => 9) (score_request "" "3") =
      (scenario, .uncaught .invalid_argument) ∧
    post_candidate scenario 9 (fun _ => 9) (score_request "abc" "3") =
      (scenario, .uncaught .invalid_argument) ∧
    post_candidate scenario 9 (fun _ => 9) (score_request "4" "four") =
      (scenario, .uncaught .invalid_argument) := by
  decide

/-! ## `create_candidate` followed by `get_candidate` -/

theorem nulFree_of_mem_positions {db : Database} (hv : db.valid) {p : String}
    (hp : p ∈ db.positions.map (fun x => x.id)) : NulFree p := by
  obtain ⟨x, hx, rfl⟩ := List.mem_map.1 hp
  exact (hv.positions_text x hx).1

theorem exists_cons_filter_of_mem {α : Type} {l : List α} {p : α → Bool} {a : α}
    (ha : a ∈ l) (hp : p a = true) : ∃ b t, l.filter p = b :: t := by
  have hm : a ∈ l.filter p := List.mem_filter.2 ⟨ha, hp⟩
  cases h : l.filter p with
  | nil => rw [h] at hm; simp at hm
  | cons b t => exact ⟨b, t, rfl⟩

theorem c_str_empty : c_str "" = "" := by decide

/-- C9 as stated fails on two counts.  A name holding a zero byte is stored only up to that
byte, so `get_candidate` returns "A" for the name "A\0B".  And when the generated
identifier repeats the id of a persisted candidate the INSERT is refused, the id is
returned all the same, and `get_candidate` returns the older candidate, Smith. -/
theorem create_candidate_counterexample :
    (get_candidate (create_candidate scenario 9 (fun _ => 9) scenario_position.1 "A\x00B").2
        (create_candidate scenario 9 (fun _ => 9) scenario_position.1 "A\x00B").1).map
      (fun d => d.name) = some "A" ∧
    (get_candidate (create_candidate scenario 9 (fun _ => 1) scenario_position.1 "Brown").2
        (create_candidate scenario 9 (fun _ => 1) scenario_position.1 "Brown").1).map
      (fun d => d.name) = some "Smith" := by
  decide

/-- C9, amended: in every store state, for every existing position `p` and every name `n`
without a zero byte, if the identifier generated by `create_candidate p n` is not the id of
a persisted candidate, then `get_candidate` of the returned id succeeds and returns that id,
the name `n`, the position id `p`, the title of `p` and an empty `student_feedback`. -/
theorem create_candidate_get_candidate (db : Database) (hv : db.valid) (now : Nat)
    (rnd : Nat → Fin 16) (p n : String)
    (hp : p ∈ db.positions.map (fun x => x.id)) (hn : NulFree n)
    (hfresh : generate_uuid rnd ∉ db.candidates.map (fun c => c.id)) :
    ∃ title, get_position db p = some title ∧
      get_candidate (create_candidate db now rnd p n).2 (create_candidate db now rnd p n).1 =
        some { id := (create_candidate db now rnd p n).1, name := n, position_id := p,
               position_title := title, student_feedback := "" } := by
  have hpn := c_str_of_nulFree (nulFree_of_mem_positions hv hp)
  have hnn := c_str_of_nulFree hn
  have hid := c_str_generate_uuid rnd
  obtain ⟨q, hq, hqe⟩ := List.mem_map.1 hp
  obtain ⟨q0, t, hfil⟩ := exists_cons_filter_of_mem (p := fun x : PositionRow => x.id = p) hq
    (decide_eq_true hqe)
  have g1 : ¬ (db.candidates.any (fun c => c.id = generate_uuid rnd)) = true := by
    simp only [List.any_eq_true, decide_eq_true_eq, not_exists, not_and]
    intro x hx e
    exact hfresh (List.mem_map.2 ⟨x, hx, e⟩)
  have g2 : (db.positions.any (fun x => x.id = p)) = true :=
    List.any_eq_true.2 ⟨q, hq, decide_eq_true hqe⟩
  have hcands : db.candidates.filter (fun c => c.id = generate_uuid rnd) = [] := by
    rw [List.filter_eq_nil_iff]
    intro x hx e
    exact hfresh (List.mem_map.2 ⟨x, hx, of_decide_eq_true e⟩)
  have hcomm : (fun x : PositionRow => decide (p = x.id)) = fun x => decide (x.id = p) := by
    funext x; simp only [eq_comm]
  refine ⟨c_str q0.title, ?_, ?_⟩
  · unfold get_position
    rw [hpn, hfil]
  · unfold create_candidate
    dsimp only
    rw [hid, hpn, hnn, if_neg g1, if_neg (not_not.2 g2)]
    unfold get_candidate candidate_join_position
    dsimp only
    rw [hid, filter_append_singleton hcands (decide_eq_true rfl)]
    simp only [List.flatMap_cons, List.flatMap_nil, List.append_nil, hcomm, hfil, List.map_cons]
    simp only [hid, hpn, hnn, Option.getD_none, c_str_empty]

/-- C9 amended, at the scenario: a candidate Brown for the chemistry position. -/
theorem create_candidate_get_candidate_witness :
    scenario.valid ∧
    ∃ title, get_position scenario scenario_position.1 = some title ∧
      get_candidate (create_candidate scenario 9 (fun _ => 9) scenario_position.1 "Brown").2
        (create_candidate scenario 9 (fun _ => 9) scenario_position.1 "Brown").1 =
        some { id := (create_candidate scenario 9 (fun _ => 9) scenario_position.1 "Brown").1,
               name := "Brown", position_id := scenario_position.1,
               position_title := title, student_feedback := "" } :=
  ⟨scenario_valid,
   create_candidate_get_candidate scenario scenario_valid 9 (fun _ => 9) scenario_position.1
     "Brown" (by decide) (by decide) (by decide)⟩

/-! ## `update_feedback` followed by `get_candidate` -/

theorem get_candidate_of_mem (db : Database) (hv : db.valid) (c : String)
    (hc : c ∈ db.candidates.map (fun x => x.id)) : ∃ d, get_candidate db c = some d := by
  have hcn := c_str_of_nulFree (nulFree_of_mem_candidates hv hc)
  obtain ⟨c0, hc0, rfl⟩ := List.mem_map.1 hc
  obtain ⟨q, hq, hqe⟩ := List.mem_map.1 (hv.candidates_fk c0 hc0)
  have hmem : (c0, q) ∈ candidate_join_position db c0.id := by
    unfold candidate_join_position
    rw [List.mem_flatMap]
    refine ⟨c0, List.mem_filter.2 ⟨hc0, decide_eq_true rfl⟩, ?_⟩
    rw [List.mem_map]
    exact ⟨q, List.mem_filter.2 ⟨hq, decide_eq_true hqe.symm⟩, rfl⟩
  unfold get_candidate
  rw [hcn]
  cases hj : candidate_join_position db c0.id with
  | nil => rw [hj] at hmem; simp at hmem
  | cons x t => exact ⟨_, rfl⟩

theorem candidate_join_position_update_feedback (db : Database) (candidate_id feedback : String) :
    candidate_join_position (update_feedback db candidate_id feedback) (c_str candidate_id) =
      (candidate_join_position db (c_str candidate_id)).map
        (fun x => ({ x.1 with student_feedback := some (c_str feedback) }, x.2)) := by
  unfold candidate_join_position update_feedback
  dsimp only
  induction db.candidates with
  | nil => rfl
  | cons a t ih =>
    by_cases ha : a.id = c_str candidate_id
    · simp only [List.map_cons, if_pos ha, List.filter_cons, ha, decide_True, if_true,
        List.flatMap_cons, List.map_append, List.map_map]
      rw [ih]
      simp only [Function.comp_def, ha]
    · simp only [List.map_cons, if_neg ha, List.filter_cons, ha, decide_False,
        Bool.false_eq_true, if_false]
      exact ih

theorem get_candidate_update_feedback (db : Database) (candidate_id feedback : String) :
    get_candidate (update_feedback db candidate_id feedback) candidate_id =
      (get_candidate db candidate_id).map
        (fun d => { d with student_feedback := c_str feedback }) := by
  unfold get_candidate
  rw [candidate_join_position_update_feedback]
  cases candidate_join_position db (c_str candidate_id) with
  | nil => rfl
  | cons x t =>
    obtain ⟨c, p⟩ := x
    simp only [List.map_cons, Option.map_some', Option.getD_some, c_str_c_str]

/-- C10 as stated fails: a feedback text holding a zero byte is stored only up to that
byte, so after `update_feedback` with "fine\0 but late" `get_candidate` returns "fine". -/
theorem update_feedback_counterexample :
    (get_candidate (update_feedback scenario scenario_smith.1 "fine\x00 but late")
        scenario_smith.1).map (fun d => d.student_feedback) = some "fine" ∧
    ¬ ((get_candidate (update_feedback scenario scenario_smith.1 "fine\x00 but late")
        scenario_smith.1).map (fun d => d.student_feedback) = some "fine\x00 but late") := by
  decide

/-- C10, amended: in every store state, for every existing candidate `c` and every text
without a zero byte (the empty text included), after `update_feedback c text`
`get_candidate c` returns what it returned before with `student_feedback` replaced by
exactly `text`; the name and position of every candidate, the scores, the positions and
the users are unchanged. -/
theorem update_feedback_get_candidate (db : Database) (hv : db.valid) (c text : String)
    (hc : c ∈ db.candidates.map (fun x => x.id)) (ht : NulFree text) :
    (∃ d, get_candidate db c = some d ∧
      get_candidate (update_feedback db c text) c = some { d with student_feedback := text }) ∧
    (update_feedback db c text).candidates.map (fun x => (x.id, x.position_id, x.name)) =
      db.candidates.map (fun x => (x.id, x.position_id, x.name)) ∧
    (update_feedback db c text).scores = db.scores ∧
    (update_feedback db c text).positions = db.positions ∧
    (update_feedback db c text).users = db.users := by
  refine ⟨?_, ?_, rfl, rfl, rfl⟩
  · obtain ⟨d, hd⟩ := get_candidate_of_mem db hv c hc
    refine ⟨d, hd, ?_⟩
    rw [get_candidate_update_feedback, hd, c_str_of_nulFree ht]
    rfl
  · unfold update_feedback
    simp only [List.map_map]
    refine List.map_congr_left ?_
    intro x _
    simp only [Function.comp]
    split <;> rfl

/-- C10 amended, at the scenario: feedback for Smith is written, then cleared. -/
theorem update_feedback_get_candidate_witness :
    scenario.valid ∧
    (get_candidate (update_feedback scenario scenario_smith.1 "Speak up.")
        scenario_smith.1).map (fun d => d.student_feedback) = some "Speak up." ∧
    ∃ d, get_candidate (update_feedback scenario scenario_smith.1 "Speak up.")
        scenario_smith.1 = some d ∧
      get_candidate (update_feedback (update_feedback scenario scenario_smith.1 "Speak up.")
        scenario_smith.1 "") scenario_smith.1 = some { d with student_feedback := "" } :=
  ⟨scenario_valid, by decide,
   (update_feedback_get_candidate (update_feedback scenario scenario_smith.1 "Speak up.")
      (valid_update_feedback scenario scenario_valid _ _) scenario_smith.1 ""
      (by decide) (by decide)).1⟩

/-! ## `ensure_user` -/

theorem ensure_user_users (db : Database) (now : Nat) (id email name : String) :
    (ensure_user db now id email name).users = db.users ∨
    (ensure_user db now id email name).users =
      db.users ++ [{ id := c_str id, email := c_str email, display_name := c_str name,
                     created_at := now }] := by
  unfold ensure_user
  dsimp only
  split
  · exact Or.inl rfl
  · exact Or.inr rfl

theorem ensure_user_twice (db : Database) (now1 now2 : Nat) (id email name : String) :
    ensure_user (ensure_user db now1 id email name) now2 id email name =
      ensure_user db now1 id email name := by
  by_cases h : (db.users.any
      (fun u => decide (u.id = c_str id) || decide (u.email = c_str email))) = true
  · have e : ensure_user db now1 id email name = db := by
      unfold ensure_user; dsimp only; rw [if_pos h]
    rw [e]
    unfold ensure_user; dsimp only; rw [if_pos h]
  · have e : ensure_user db now1 id email name =
        { db with users := (db.users ++ [(⟨c_str id, c_str email, c_str name, now1⟩ : UserRow)]) } := by
      unfold ensure_user; dsimp only; rw [if_neg h]
    rw [e]
    refine ensure_user_of_mem _ now2 id email name ?_
    simp

/-- C11: in every store state in which a user with id `i` exists, `ensure_user i email
name` leaves the whole store unchanged, whatever `email` and `name` are, so the stored
email and display name of `i` stay those of the first write; and `ensure_user` applied
twice with the same arguments yields the state that applying it once yields. -/
theorem ensure_user_first_write_wins (db : Database) (hv : db.valid) (now : Nat)
    (i email name : String) (hi : i ∈ db.users.map (fun u => u.id)) :
    ensure_user db now i email name = db ∧
    ∀ (db0 : Database) (now1 now2 : Nat) (id0 email0 name0 : String),
      ensure_user (ensure_user db0 now1 id0 email0 name0) now2 id0 email0 name0 =
        ensure_user db0 now1 id0 email0 name0 := by
  refine ⟨ensure_user_of_mem db now i email name ?_, ensure_user_twice⟩
  rw [c_str_of_nulFree (nulFree_of_mem_users hv hi)]
  exact hi

/-- C11, at the scenario: ensuring B again under another email and name changes nothing. -/
theorem ensure_user_first_write_wins_witness :
    scenario.valid ∧ "B" ∈ scenario.users.map (fun u => u.id) ∧
    ensure_user scenario 9 "B" "robert@elsewhere.org" "Robert" = scenario :=
  ⟨scenario_valid, by decide,
   (ensure_user_first_write_wins scenario scenario_valid 9 "B" "robert@elsewhere.org" "Robert"
      (by decide)).1⟩

/-- C12 as stated fails on two counts.  Two interviewers whose requests carry no email
header both resolve to the email "": U1 is created, and U2, whose id is new, is not,
because the UNIQUE email makes `INSERT OR IGNORE` skip the row.  And a display name
holding a zero byte is stored only up to that byte. -/
theorem ensure_user_counterexample :
    ("U2" ∉ (ensure_user Database.empty 0 "U1" "" "Una").users.map (fun u => u.id) ∧
      (ensure_user (ensure_user Database.empty 0 "U1" "" "Una") 1 "U2" "" "Uwe").users.map
        (fun u => u.id) = ["U1"]) ∧
    (ensure_user Database.empty 0 "U3" "u3@uni.edu" "Ze\x00ro").users.map
      (fun u => (u.id, u.email, u.display_name)) = [("U3", "u3@uni.edu", "Ze")] := by
  decide

/-- C12, amended: in every store state, for every identity triple free of zero bytes such
that no user has that id and no user has that email, after `ensure_user id email name` the
users are those before followed by one record with that id, email and display name. -/
theorem ensure_user_creates (db : Database) (now : Nat) (id email name : String)
    (hid : NulFree id) (hemail : NulFree email) (hname : NulFree name)
    (hnew : id ∉ db.users.map (fun u => u.id))
    (hfree : email ∉ db.users.map (fun u => u.email)) :
    (ensure_user db now id email name).users =
      db.users ++ [{ id := id, email := email, display_name := name, created_at := now }] ∧
    (ensure_user db now id email name).positions = db.positions ∧
    (ensure_user db now id email name).candidates = db.candidates ∧
    (ensure_user db now id email name).scores = db.scores := by
  refine ⟨?_, ensure_user_fields db now id email name⟩
  unfold ensure_user
  dsimp only
  rw [c_str_of_nulFree hid, c_str_of_nulFree hemail, c_str_of_nulFree hname]
  rw [if_neg]
  simp only [List.any_eq_true, Bool.or_eq_true, decide_eq_true_eq, not_exists, not_and, not_or]
  intro u hu
  exact ⟨fun e => hnew (List.mem_map.2 ⟨u, hu, e⟩), fun e => hfree (List.mem_map.2 ⟨u, hu, e⟩)⟩

/-- C12 amended, at the scenario: interviewer D is seen for the first time. -/
theorem ensure_user_creates_witness :
    (ensure_user scenario 9 "D" "d@uni.edu" "Dee").users =
      scenario.users ++
        [{ id := "D", email := "d@uni.edu", display_name := "Dee", created_at := 9 }] :=
  (ensure_user_creates scenario 9 "D" "d@uni.edu" "Dee" (by decide) (by decide) (by decide)
    (by decide) (by decide)).1

/-! ## The creating handlers -/

theorem get_position_congr {db1 db2 : Database} (hp : db1.positions = db2.positions)
    (id : String) : get_position db1 id = get_position db2 id := by
  unfold get_position
  rw [hp]

theorem get_position_get_current_user (req : Request) (db : Database) (now : Nat)
    (id : String) : get_position (get_current_user req db now).2 id = get_position db id :=
  get_position_congr (ensure_user_fields db now _ _ _).1 id

/-- C13 as stated fails: a request to create a candidate with an empty name under a
position id that names no position is not answered with a validation message; the
handler redirects to "/" before it looks at the name. -/
theorem empty_name_unknown_position :
    get_position scenario "0dead0" = none ∧
    param (candidate_request "0dead0" "").params "name" = "" ∧
    post_candidate_new scenario 9 (fun _ => 9) (candidate_request "0dead0" "") =
      (scenario, .redirect "/") ∧
    (post_candidate_new scenario 9 (fun _ => 9) (candidate_request "0dead0" "")).2.flash =
      none := by
  decide

/-- C13, amended: in every store state, a request to create a position with an empty
title is answered with the position form and the message "Position title is required.",
and a request to create a candidate with an empty name for an existing position is
answered with the candidate form and the message "Candidate name is required."; in both
cases the positions, candidates and scores are the same after the request as before it,
and the store is the one before it with the requesting user ensured. -/
theorem empty_title_or_name_rejected (db : Database) (now : Nat) (rnd : Nat → Fin 16)
    (req : Request) :
    (param req.params "title" = "" →
      post_position_new db now rnd req =
        ((get_current_user req db now).2,
          .position_form_page (get_current_user req db now).1.name
            "Position title is required.")) ∧
    (param req.params "name" = "" →
      ∀ title, get_position db req.path_id = some title →
        post_candidate_new db now rnd req =
          ((get_current_user req db now).2,
            .candidate_form_page (get_current_user req db now).1.name
              "Candidate name is required." req.path_id title)) ∧
    (get_current_user req db now).2 =
      ensure_user db now (get_current_user req db now).1.id
        (get_current_user req db now).1.email (get_current_user req db now).1.name ∧
    (get_current_user req db now).2.positions = db.positions ∧
    (get_current_user req db now).2.candidates = db.candidates ∧
    (get_current_user req db now).2.scores = db.scores := by
  refine ⟨?_, ?_, rfl, ensure_user_fields db now _ _ _⟩
  · intro ht
    unfold post_position_new
    simp only [ht, if_true]
  · intro hn title hp
    unfold post_candidate_new
    simp only [get_position_get_current_user, hp, hn, if_true]

/-- C13 amended, at the scenario: interviewer B submits an empty title, and an empty
name for the chemistry position. -/
theorem empty_title_or_name_rejected_witness :
    post_position_new scenario 9 (fun _ => 9) (position_request "") =
      (scenario, .position_form_page "Bob" "Position title is required.") ∧
    post_candidate_new scenario 9 (fun _ => 9) (candidate_request scenario_position.1 "") =
      (scenario, .candidate_form_page "Bob" "Candidate name is required."
        scenario_position.1 "Chemistry Lecturer") :=
  ⟨(empty_title_or_name_rejected scenario 9 (fun _ => 9) (position_request "")).1 (by decide),
   (empty_title_or_name_rejected scenario 9 (fun _ => 9)
      (candidate_request scenario_position.1 "")).2.1 (by decide) "Chemistry Lecturer"
      (by decide)⟩

theorem get_position_eq_none {db : Database} {id : String} (h : get_position db id = none) :
    ¬ (db.positions.any (fun p => p.id = c_str id)) = true := by
  unfold get_position at h
  intro hany
  obtain ⟨p, hp, hpe⟩ := List.any_eq_true.1 hany
  have hm : p ∈ db.positions.filter (fun p => p.id = c_str id) := List.mem_filter.2 ⟨hp, hpe⟩
  cases hf : db.positions.filter (fun p => p.id = c_str id) with
  | nil => rw [hf] at hm; simp at hm
  | cons q t => rw [hf] at h; simp at h

/-- C14 as stated fails for `Database::create_candidate`: called with a position id that
names no position it adds no row, yet it returns a candidate id, the very id it returns
when the creation succeeds, and no candidate has that id. -/
theorem create_candidate_unknown_position_returns_id :
    get_position scenario "0dead0" = none ∧
    create_candidate scenario 9 (fun _ => 9) "0dead0" "Brown" =
      ("99999999-9999-4999-9999-999999999999", scenario) ∧
    (create_candidate scenario 9 (fun _ => 9) scenario_position.1 "Brown").1 =
      "99999999-9999-4999-9999-999999999999" ∧
    get_candidate scenario "99999999-9999-4999-9999-999999999999" = none := by
  decide

/-- C14, amended: in every store state, for every position id that names no existing
position and any name, `Database::create_candidate` adds no candidate row (the store is
unchanged) although it returns the generated id; the request handler answers such a
request with a redirect to "/", without calling `create_candidate`, so that no candidate
row is added and no candidate id reaches the caller. -/
theorem create_candidate_unknown_position (db : Database) (now : Nat) (rnd : Nat → Fin 16)
    (position_id name : String) (hp : get_position db position_id = none) :
    (create_candidate db now rnd position_id name).2 = db ∧
    (create_candidate db now rnd position_id name).1 = generate_uuid rnd ∧
    ∀ req : Request, req.path_id = position_id →
      post_candidate_new db now rnd req = ((get_current_user req db now).2, .redirect "/") ∧
      (get_current_user req db now).2.candidates = db.candidates := by
  have hany := get_position_eq_none hp
  refine ⟨?_, ?_, ?_⟩
  · unfold create_candidate
    dsimp only
    split
    · rfl
    · rfl
  · unfold create_candidate
    dsimp only
    split
    · rfl
    · rfl
  · intro req hreq
    refine ⟨?_, (ensure_user_fields db now _ _ _).2.1⟩
    unfold post_candidate_new
    simp only [get_position_get_current_user, hreq, hp]

/-- C14 amended, at the scenario and the position id "0dead0". -/
theorem create_candidate_unknown_position_witness :
    get_position scenario "0dead0" = none ∧
    (create_candidate scenario 9 (fun _ => 9) "0dead0" "Brown").2 = scenario ∧
    post_candidate_new scenario 9 (fun _ => 9) (candidate_request "0dead0" "Brown") =
      (scenario, .redirect "/") :=
  ⟨by decide,
   (create_candidate_unknown_position scenario 9 (fun _ => 9) "0dead0" "Brown" (by decide)).1,
   ((create_candidate_unknown_position scenario 9 (fun _ => 9) "0dead0" "Brown"
      (by decide)).2.2 (candidate_request "0dead0" "Brown") rfl).1⟩

/-! ## `generate_uuid` -/

theorem generate_uuid_eq (rnd : Nat → Fin 16) :
    (generate_uuid rnd).data =
      [hex (rnd 0), hex (rnd 1), hex (rnd 2), hex (rnd 3), hex (rnd 4), hex (rnd 5),
       hex (rnd 6), hex (rnd 7), '-', hex (rnd 8), hex (rnd 9), hex (rnd 10), hex (rnd 11),
       '-', '4', hex (rnd 12), hex (rnd 13), hex (rnd 14), '-',
       hex (((rnd 15).val &&& 0x3) ||| 0x8), hex (rnd 16), hex (rnd 17), hex (rnd 18), '-',
       hex (rnd 19), hex (rnd 20), hex (rnd 21), hex (rnd 22), hex (rnd 23), hex (rnd 24),
       hex (rnd 25), hex (rnd 26), hex (rnd 27), hex (rnd 28), hex (rnd 29), hex (rnd 30)] :=
  rfl

theorem hex_mem_digits : ∀ d : Fin 16, hex d.val ∈ "0123456789abcdef".data := by decide

theorem hex_variant_mem : ∀ d : Fin 16, hex ((d.val &&& 0x3) ||| 0x8) ∈ ['8', '9', 'a', 'b'] := by
  decide

/-- C15: for every sequence of draws in 0..15, `generate_uuid` returns a string of exactly
36 characters with '-' at indices 8, 13, 18 and 23, '4' at index 14, one of '8', '9', 'a',
'b' at index 19, and a lowercase hexadecimal digit at every other index. -/
theorem generate_uuid_format (rnd : Nat → Fin 16) :
    (generate_uuid rnd).length = 36 ∧
    ∀ i, i < 36 →
      (i = 8 ∨ i = 13 ∨ i = 18 ∨ i = 23 → (generate_uuid rnd).data[i]? = some '-') ∧
      (i = 14 → (generate_uuid rnd).data[i]? = some '4') ∧
      (i = 19 → ∃ c ∈ ['8', '9', 'a', 'b'], (generate_uuid rnd).data[i]? = some c) ∧
      (i ≠ 8 ∧ i ≠ 13 ∧ i ≠ 18 ∧ i ≠ 23 ∧ i ≠ 14 ∧ i ≠ 19 →
        ∃ c ∈ "0123456789abcdef".data, (generate_uuid rnd).data[i]? = some c) := by
  have hlen : (generate_uuid rnd).length = 36 := by
    show (generate_uuid rnd).data.length = 36
    rw [generate_uuid_eq]; rfl
  refine ⟨hlen, ?_⟩
  intro i hi
  rw [generate_uuid_eq]
  interval_cases i <;>
    refine ⟨fun h => ?_, fun h => ?_, fun h => ?_, fun h => ?_⟩ <;>
    first
      | exact absurd h (by decide)
      | rfl
      | exact ⟨_, hex_mem_digits _, rfl⟩
      | exact ⟨_, hex_variant_mem _, rfl⟩

/-! ## The overall average -/

/-- C16: for every candidate with at least one score, the `avg_total` that
`get_score_stats` computes, the mean of the two per-axis means, equals the pooled mean of
all ratings, (sum of `hand_gestures` + sum of `stayed_awake`) / (2 * count), in exact
rational arithmetic.  The candidate is the one the bound C string names. -/
theorem avg_total_is_pooled_mean (db : Database) (candidate_id : String)
    (h : scores_of db (c_str candidate_id) ≠ []) :
    (get_score_stats db candidate_id).avg_total =
      ((((scores_of db (c_str candidate_id)).map (fun s => s.hand_gestures)).sum +
        ((scores_of db (c_str candidate_id)).map (fun s => s.stayed_awake)).sum : Int) : ℚ) /
        (2 * ((scores_of db (c_str candidate_id)).length : ℚ)) := by
  unfold get_score_stats
  have e : db.scores.filter (fun s => s.candidate_id = c_str candidate_id) =
      scores_of db (c_str candidate_id) := rfl
  simp only [e]
  generalize scores_of db (c_str candidate_id) = l at h
  cases l with
  | nil => exact absurd rfl h
  | cons s t =>
    have hpos : ((List.length (s :: t) : ℕ) : Int) > 0 := by
      simp only [List.length_cons]; omega
    rw [if_pos hpos]
    have hne : ((List.length (s :: t) : ℕ) : ℚ) ≠ 0 := by
      simp only [List.length_cons]; positivity
    simp only [sql_avg, sql_half_sum, column_double, List.isEmpty_cons, Bool.false_eq_true,
      if_false, Option.getD_some]
    push_cast
    field_simp
    left
    ring

/-- C16, at Smith of the scenario: (4+2+5+3) / (2*2) = 7/2. -/
theorem avg_total_is_pooled_mean_witness :
    scores_of scenario (c_str scenario_smith.1) ≠ [] ∧
    (get_score_stats scenario scenario_smith.1).avg_total = 7 / 2 :=
  ⟨by decide,
   (avg_total_is_pooled_mean scenario scenario_smith.1 (by decide)).trans (by decide!)⟩

/-! ## `url_decode` -/

/-- Where `url_decode` does what is expected of it: a '%' followed by two hexadecimal
digits becomes the byte of that value, a '+' becomes a space, a '%' with fewer than two
characters after it and any character other than '%' and '+' are copied. -/
theorem url_decode_loop_steps (rest : List Char) :
    (∀ (c1 c2 : Char) (h1 h2 : Nat), hex_digit_value c1 = some h1 →
      hex_digit_value c2 = some h2 →
      url_decode_loop 0 ('%' :: c1 :: c2 :: rest) =
        to_char (16 * (h1 : Int) + (h2 : Int)) :: url_decode_loop 0 rest) ∧
    url_decode_loop 0 ('+' :: rest) = ' ' :: url_decode_loop 0 rest ∧
    url_decode_loop 0 ['%'] = ['%'] ∧
    (∀ c : Char, url_decode_loop 0 ['%', c] = '%' :: url_decode_loop 0 [c]) ∧
    ∀ c : Char, c ≠ '%' → c ≠ '+' →
      url_decode_loop 0 (c :: rest) = c :: url_decode_loop 0 rest := by
  refine ⟨?_, ?_, ?_, ?_, ?_⟩
  · intro c1 c2 h1 h2 e1 e2
    simp only [url_decode_loop, extract_hex, e1, e2, if_true]
  · simp [url_decode_loop]
  · simp [url_decode_loop]
  · intro c
    simp [url_decode_loop]
  · intro c hc1 hc2
    simp only [url_decode_loop, if_neg hc1, if_neg hc2]

/-- C17 fails on the code: a '%' followed by one hexadecimal digit and another character
is not copied.  In "%4z" the stream extraction reads the single digit 4 and succeeds, so
`url_decode` emits the byte 4 and passes over the 'z'; the same happens after white space
or a sign ("% 1", "%+1", "%-1"), and in "%4%41" the escape "%41" is swallowed instead of
being decoded to 'A'. -/
theorem url_decode_partial_escape :
    url_decode "%4z" = "\x04" ∧
    url_decode "% 1" = "\x01" ∧
    url_decode "%+1" = "\x01" ∧
    url_decode "%-1" = ⟨[Char.ofNat 255]⟩ ∧
    url_decode "%4%41" = "\x0441" ∧
    url_decode "%41" = "A" := by
  decide

/-! ## `html_escape` -/

theorem html_escape_char_clean (c x : Char) (hx : x ∈ html_escape_char c) :
    x ≠ '<' ∧ x ≠ '>' ∧ x ≠ '\x22' ∧ x ≠ '\x27' := by
  unfold html_escape_char at hx
  split at hx
  · revert x; decide
  · split at hx
    · revert x; decide
    · split at hx
      · revert x; decide
      · split at hx
        · revert x; decide
        · split at hx
          · revert x; decide
          · rw [List.mem_singleton] at hx
            subst hx
            rename_i h1 h2 h3 h4 h5
            exact ⟨h2, h3, h4, h5⟩

theorem html_unescape_loop_escape_char (c : Char) (l : List Char) :
    html_unescape_loop 0 (html_escape_char c ++ l) = c :: html_unescape_loop 0 l := by
  unfold html_escape_char
  split
  · rename_i h; subst h
    simp [html_unescape_loop, List.isPrefixOf]
  · split
    · rename_i h; subst h
      simp [html_unescape_loop, List.isPrefixOf]
    · split
      · rename_i h; subst h
        simp [html_unescape_loop, List.isPrefixOf]
      · split
        · rename_i h; subst h
          simp [html_unescape_loop, List.isPrefixOf]
        · split
          · rename_i h; subst h
            simp [html_unescape_loop, List.isPrefixOf]
          · rename_i h _ _ _ _
            simp [html_unescape_loop, h]

theorem ampersand_heads_entity (e : List Char) (he : e ∈ html_entities) (i : Nat)
    (h : e[i]? = some '&') : i = 0 := by
  simp only [html_entities, List.mem_cons, List.mem_singleton, List.not_mem_nil, or_false] at he
  rcases he with rfl | rfl | rfl | rfl | rfl <;>
    rcases i with _ | _ | _ | _ | _ | _ | i <;>
    first | rfl | (exact absurd h (by decide)) | (simp at h)

theorem html_escape_char_ampersand (c : Char) (i : Nat)
    (h : (html_escape_char c)[i]? = some '&') :
    i = 0 ∧ html_escape_char c ∈ html_entities := by
  have key : html_escape_char c ∈ html_entities ∨ (c ≠ '&' ∧ html_escape_char c = [c]) := by
    unfold html_escape_char
    split
    · exact Or.inl (by decide)
    · split
      · exact Or.inl (by decide)
      · split
        · exact Or.inl (by decide)
        · split
          · exact Or.inl (by decide)
          · split
            · exact Or.inl (by decide)
            · rename_i h1 _ _ _ _
              exact Or.inr ⟨h1, rfl⟩
  rcases key with he | ⟨hne, hs⟩
  · exact ⟨ampersand_heads_entity _ he i h, he⟩
  · rw [hs] at h
    rcases i with _ | i
    · simp at h
      exact absurd h hne
    · simp at h

theorem html_escape_chars_ampersand (l : List Char) (i : Nat)
    (h : (html_escape_chars l)[i]? = some '&') :
    ∃ e ∈ html_entities, e <+: (html_escape_chars l).drop i := by
  induction l generalizing i with
  | nil => simp [html_escape_chars] at h
  | cons c cs ih =>
    simp only [html_escape_chars] at h ⊢
    by_cases hi : i < (html_escape_char c).length
    · rw [List.getElem?_append_left hi] at h
      obtain ⟨h0, he⟩ := html_escape_char_ampersand c i h
      subst h0
      exact ⟨_, he, by simp⟩
    · have hle : (html_escape_char c).length ≤ i := Nat.le_of_not_lt hi
      rw [List.getElem?_append_right hle] at h
      obtain ⟨e, he, hp⟩ := ih _ h
      refine ⟨e, he, ?_⟩
      rw [List.drop_append_eq_append_drop, List.drop_of_length_le hle, List.nil_append]
      exact hp

theorem html_escape_chars_clean (l : List Char) :
    ∀ x ∈ html_escape_chars l, x ≠ '<' ∧ x ≠ '>' ∧ x ≠ '\x22' ∧ x ≠ '\x27' := by
  induction l with
  | nil => simp [html_escape_chars]
  | cons c cs ih =>
    intro x hx
    simp only [html_escape_chars, List.mem_append] at hx
    rcases hx with h | h
    · exact html_escape_char_clean c x h
    · exact ih x h

theorem html_unescape_loop_escape_chars (l : List Char) :
    html_unescape_loop 0 (html_escape_chars l) = l := by
  induction l with
  | nil => rfl
  | cons c cs ih =>
    simp only [html_escape_chars]
    rw [html_unescape_loop_escape_char, ih]

/-- C18: for every string `s`, `html_escape s` contains none of the characters '<', '>',
'"' and the apostrophe; every '&' in it is the first character of one of the entities
`&amp;`, `&lt;`, `&gt;`, `&quot;`, `&#39;`; and replacing those five entities by their
characters in `html_escape s` gives back `s`. -/
theorem html_escape_spec (s : String) :
    (∀ x ∈ (html_escape s).data, x ≠ '<' ∧ x ≠ '>' ∧ x ≠ '\x22' ∧ x ≠ '\x27') ∧
    (∀ i, (html_escape s).data[i]? = some '&' →
      ∃ e ∈ html_entities, e <+: (html_escape s).data.drop i) ∧
    html_unescape (html_escape s) = s := by
  refine ⟨html_escape_chars_clean s.data, html_escape_chars_ampersand s.data, ?_⟩
  unfold html_unescape html_escape
  simp only [html_unescape_loop_escape_chars]

/-- A form value can hold a zero byte: `url_decode` turns "%00" into one. -/
theorem url_decode_zero_byte :
    url_decode "A%00B" = "A\x00B" ∧ c_str (url_decode "A%00B") = "A" := by
  decide

end CandidateScoring
